import Mathlib

/-!
Shallow embedding of the Salesforce MCP tool handlers
(`src/tools/caseCreation.ts`, `src/utils/interaction.ts`, and the unnamed
`dml.ts` variant) and proofs about the claims on them.

Modelling conventions:
* The interaction provider (`promptUser`) and the remote CRM connection are
  the two effectful collaborators.  A computation is a function of an explicit
  state `St` holding the scripted user-input lines still to be consumed and
  the trace of remote calls issued so far; a thrown JS error is `Except.error`.
* JS numbers used for selections are modelled as `Int` (results of
  `parseInt(s, 10)`, with `none` for `NaN`); numeric field values as `Rat`
  (no claim depends on floating-point behaviour).
* JS truthiness of the optional strings and field values that the source
  branches on is modelled by `optTruthy` / `fieldValTruthy`
  (absent, `""`, `false` and `0` are falsy).
* `console.log` output is not modelled (it is not part of any handler result).
* An exhausted input script models the real `promptUser` blocking forever on
  stdin; it is represented by a distinguished error that no handler catches.
-/

/-- Value of a record field: string, boolean, or numeric. -/
inductive FieldVal where
  | s (v : String)
  | b (v : Bool)
  | n (v : Rat)
deriving DecidableEq, Repr

/-- A record is a finite map from field API name to value, modelled as an
association list with unique keys (JS object semantics: assignment to an
existing key overwrites in place, new keys append). -/
abbrev Rec := List (String × FieldVal)

/-- JS `record[k] = v`: overwrite an existing key in place, append otherwise. -/
def setField : Rec → String → FieldVal → Rec
  | [], k, v => [(k, v)]
  | (k', v') :: rest, k, v =>
    if k' = k then (k, v) :: rest else (k', v') :: setField rest k v

/-- JS `record[k]` (`none` = `undefined`). -/
def getField : Rec → String → Option FieldVal
  | [], _ => none
  | (k', v') :: rest, k => if k' = k then some v' else getField rest k

/-- JS `delete record[k]`. -/
def deleteField (r : Rec) (k : String) : Rec :=
  r.filter (fun p => p.1 != k)

/-- JS truthiness of a field value (`""`, `false`, `0` are falsy). -/
def fieldValTruthy : FieldVal → Bool
  | FieldVal.s v => v != ""
  | FieldVal.b v => v
  | FieldVal.n v => v != 0

/-- JS truthiness of `record[k]` (absent = `undefined` = falsy). -/
def truthyField (r : Rec) (k : String) : Bool :=
  match getField r k with
  | some v => fieldValTruthy v
  | none => false

/-- JS truthiness of an optional string (`undefined` and `""` are falsy). -/
def optTruthy : Option String → Bool
  | none => false
  | some s => s != ""

/-- JS string interpolation of an optional string (`undefined` prints as such). -/
def jsShow : Option String → String
  | none => "undefined"
  | some s => s

/-- Model of JS `String.prototype.trim`: whitespace removed at both ends.
Defined over the character list so that concrete runs reduce definitionally
(the library `String.trim` does not). -/
def jsTrim (s : String) : String :=
  String.mk (((s.data.dropWhile Char.isWhitespace).reverse.dropWhile Char.isWhitespace).reverse)

/-- Model of JS `toLowerCase` (ASCII range, which is all the source compares). -/
def jsToLower (s : String) : String :=
  String.mk (s.data.map Char.toLower)

/-- Model of JS `toUpperCase` (ASCII range). -/
def jsToUpper (s : String) : String :=
  String.mk (s.data.map Char.toUpper)

/-- Numeric value of a list of decimal digit characters. -/
def digitsVal (cs : List Char) : Nat :=
  cs.foldl (fun acc c => acc * 10 + (c.toNat - '0'.toNat)) 0

/-- Model of JS `parseInt(s, 10)`: skip leading whitespace, optional sign,
longest decimal-digit prefix; `none` models `NaN` (no digit found).
Trailing non-digit characters are ignored, as in JS. -/
def parseIntJS (str : String) : Option Int :=
  let cs := str.data.dropWhile (fun c => c.isWhitespace)
  let signAndRest : Int × List Char :=
    match cs with
    | '-' :: rest => (-1, rest)
    | '+' :: rest => (1, rest)
    | _ => (1, cs)
  let digits := signAndRest.2.takeWhile (fun c => c.isDigit)
  if digits.isEmpty then none
  else some (signAndRest.1 * Int.ofNat (digitsVal digits))

/-- Model of JS `parseFloat`: optional sign, decimal digits with an optional
fractional part; `none` models `NaN`.  Exponent notation is not modelled
(no claim depends on it); values are exact rationals rather than doubles. -/
def parseFloatJS (str : String) : Option Rat :=
  let cs := str.data.dropWhile (fun c => c.isWhitespace)
  let signAndRest : Rat × List Char :=
    match cs with
    | '-' :: rest => (-1, rest)
    | '+' :: rest => (1, rest)
    | _ => (1, cs)
  let intPart := signAndRest.2.takeWhile (fun c => c.isDigit)
  let afterInt := signAndRest.2.drop intPart.length
  let fracPart :=
    match afterInt with
    | '.' :: rest => rest.takeWhile (fun c => c.isDigit)
    | _ => []
  if intPart.isEmpty && fracPart.isEmpty then none
  else
    some (signAndRest.1 *
      ((digitsVal intPart : Rat) + (digitsVal fracPart : Rat) / (10 : Rat) ^ fracPart.length))

/-- One allowed value of a picklist field (`label`, `value`, `defaultValue`).
A missing label is modelled as `""` (the source falls back with
`item.label || item.value`). -/
structure PicklistValue where
  label : String
  value : String
  defaultValue : Bool := false
deriving DecidableEq, Repr

/-- Field descriptor from `describe()` metadata, restricted to the members the
source reads.  `ftype` is the source's `type` member. -/
structure SField where
  name : String
  label : String
  ftype : String
  nillable : Bool := true
  defaultedOnCreate : Bool := false
  createable : Bool := true
  picklistValues : List PicklistValue := []
  referenceTo : List String := []
deriving DecidableEq, Repr

/-- A record returned by `find` / `retrieve`, restricted to the members the
source reads (`Email` / `Phone` only for contact search display). -/
structure SObj where
  Id : String
  Name : String
  Email : Option String := none
  Phone : Option String := none
deriving DecidableEq, Repr

/-- One structured error of a per-record DML outcome. -/
structure DMLError where
  message : String
  statusCode : Option String := none
  fields : Option (List String) := none
deriving DecidableEq, Repr

/-- `r.errors` may be an array of errors or a single error object. -/
inductive DMLErrors where
  | arr (l : List DMLError)
  | single (e : DMLError)
deriving DecidableEq, Repr

/-- Per-record DML outcome. -/
structure DMLResult where
  success : Bool
  id : Option String := none
  errors : Option DMLErrors := none
deriving DecidableEq, Repr

/-- One remote call issued through the connection handle, as recorded in the
trace.  `createOne` is the single-record `create` used by `handleCreateCase`. -/
inductive RemoteCall where
  | describe (objectName : String)
  | findLike (objectName : String) (searchTerm : String)
  | findContacts (accountId : String)
  | retrieve (objectName : String) (id : String)
  | create (objectName : String) (records : List Rec)
  | createOne (objectName : String) (record : Rec)
  | update (objectName : String) (records : List Rec)
  | destroy (objectName : String) (ids : List (Option FieldVal))
  | upsert (objectName : String) (records : List Rec) (externalIdField : String)
deriving DecidableEq, Repr

/-- State threaded through a handler invocation: the user-input lines still to
be consumed and the trace of remote calls issued so far. -/
structure St where
  script : List String
  trace : List RemoteCall
deriving DecidableEq, Repr

/-- A computation: consumes state, produces a result or a thrown error. -/
def M (α : Type) : Type := St → Except String α × St

def M.pure {α : Type} (a : α) : M α := fun st => (Except.ok a, st)

def M.bind {α β : Type} (m : M α) (f : α → M β) : M β := fun st =>
  match m st with
  | (Except.ok a, st1) => f a st1
  | (Except.error e, st1) => (Except.error e, st1)

instance : Monad M where
  pure := M.pure
  bind := M.bind

/-- JS `throw new Error(e)`. -/
def M.throw {α : Type} (e : String) : M α := fun st => (Except.error e, st)

/-- JS `try { m } catch (error) { h error }`; state changes made before the
throw persist. -/
def M.tryCatch {α : Type} (m : M α) (h : String → M α) : M α := fun st =>
  match m st with
  | (Except.ok a, st1) => (Except.ok a, st1)
  | (Except.error e, st1) => h e st1

/-- Embedding of `promptUser` (src/src/utils/interaction.ts): resolves with the
next scripted line, trimmed (`data.toString().trim()`).  An exhausted script
models the real `promptUser` blocking forever awaiting stdin. -/
def promptUser (_message : String) : M String := fun st =>
  match st.script with
  | [] => (Except.error "[model] input stream exhausted: promptUser blocks", st)
  | line :: rest => (Except.ok (jsTrim line), { st with script := rest })

/-- The connection handle: one oracle per remote operation.  `Except.error m`
models the remote promise rejecting with an error whose message is `m`. -/
structure Conn where
  instanceUrl : Option String := none
  envInstanceUrl : Option String := none
  describeFields : String → Except String (List SField)
  findLike : String → String → Except String (List SObj)
  findContacts : String → Except String (List SObj)
  retrieve : String → String → Except String SObj
  create : String → List Rec → Except String (List DMLResult)
  createOne : String → Rec → Except String DMLResult
  update : String → List Rec → Except String (List DMLResult)
  destroy : String → List (Option FieldVal) → Except String (List DMLResult)
  upsert : String → List Rec → String → Except String (List DMLResult)

/-- Issue a remote call: record it in the trace, then deliver the oracle's
outcome (a rejection becomes a thrown error at the `await`). -/
def callRemote {α : Type} (entry : RemoteCall) (res : Except String α) : M α := fun st =>
  (res, { st with trace := st.trace ++ [entry] })

def callDescribe (conn : Conn) (objectName : String) : M (List SField) :=
  callRemote (RemoteCall.describe objectName) (conn.describeFields objectName)

def callFindLike (conn : Conn) (objectName : String) (searchTerm : String) : M (List SObj) :=
  callRemote (RemoteCall.findLike objectName searchTerm) (conn.findLike objectName searchTerm)

def callFindContacts (conn : Conn) (accountId : String) : M (List SObj) :=
  callRemote (RemoteCall.findContacts accountId) (conn.findContacts accountId)

def callRetrieve (conn : Conn) (objectName : String) (id : String) : M SObj :=
  callRemote (RemoteCall.retrieve objectName id) (conn.retrieve objectName id)

def callCreate (conn : Conn) (objectName : String) (records : List Rec) : M (List DMLResult) :=
  callRemote (RemoteCall.create objectName records) (conn.create objectName records)

def callCreateOne (conn : Conn) (objectName : String) (record : Rec) : M DMLResult :=
  callRemote (RemoteCall.createOne objectName record) (conn.createOne objectName record)

def callUpdate (conn : Conn) (objectName : String) (records : List Rec) : M (List DMLResult) :=
  callRemote (RemoteCall.update objectName records) (conn.update objectName records)

def callDestroy (conn : Conn) (objectName : String) (ids : List (Option FieldVal)) : M (List DMLResult) :=
  callRemote (RemoteCall.destroy objectName ids) (conn.destroy objectName ids)

def callUpsert (conn : Conn) (objectName : String) (records : List Rec)
    (externalIdField : String) : M (List DMLResult) :=
  callRemote (RemoteCall.upsert objectName records externalIdField)
    (conn.upsert objectName records externalIdField)

/-- The create calls (bulk and single-record) contained in a trace. -/
def createCalls (trace : List RemoteCall) : List RemoteCall :=
  trace.filter (fun c =>
    match c with
    | RemoteCall.create _ _ => true
    | RemoteCall.createOne _ _ => true
    | _ => false)

/-- A handler's wire result: `content: [{ type: "text", text }]` (every
handler in the source returns exactly one text element) plus `isError`. -/
structure HandlerResult where
  text : String
  isError : Bool
deriving DecidableEq, Repr

/-- The DML operation enum of the tool schema. -/
inductive DMLOp where
  | insert
  | update
  | delete
  | upsert
deriving DecidableEq, Repr

def DMLOp.str : DMLOp → String
  | DMLOp.insert => "insert"
  | DMLOp.update => "update"
  | DMLOp.delete => "delete"
  | DMLOp.upsert => "upsert"

/-- Arguments of `handleDMLRecords` (interface `DMLArgs`). -/
structure DMLArgs where
  operation : DMLOp
  objectName : String
  records : List Rec
  externalIdField : Option String := none
  guidedInput : Option Bool := none

/-- `results.filter(r => r.success).length`. -/
def successCountOf (results : List DMLResult) : Nat :=
  (results.filter (fun r => r.success)).length

/-- `results.length - successCount`. -/
def failureCountOf (results : List DMLResult) : Nat :=
  results.length - successCountOf results

/-- Concatenation of the strings appended by a `forEach` loop. -/
def concatAll (l : List String) : String :=
  l.foldr (fun a b => a ++ b) ""

/-- One line of the `Successful Records` section (empty for records the
`if (r.success && r.id)` guard skips). -/
def successLine (p : Nat × DMLResult) : String :=
  if p.2.success && optTruthy p.2.id then
    "Record " ++ toString (p.1 + 1) ++ " - ID: " ++ jsShow p.2.id ++ "\n"
  else ""

/-- One error's lines in the array-of-errors branch
(`error.fields && error.fields.length > 0`). -/
def errorLineArr (error : DMLError) : String :=
  "  - " ++ error.message
  ++ (if optTruthy error.statusCode then " [" ++ jsShow error.statusCode ++ "]" else "")
  ++ (match error.fields with
      | some fs => if fs.length > 0 then "\n    Fields: " ++ String.intercalate ", " fs else ""
      | none => "")
  ++ "\n"

/-- The single-error-object branch (`if (error.fields)`: any present array,
even empty, is truthy). -/
def errorLineSingle (error : DMLError) : String :=
  "  - " ++ error.message
  ++ (if optTruthy error.statusCode then " [" ++ jsShow error.statusCode ++ "]" else "")
  ++ (match error.fields with
      | some fs => "\n    Fields: " ++ String.intercalate ", " fs
      | none => "")
  ++ "\n"

/-- The `Errors` section's block for one record (empty for records the
`if (!r.success && r.errors)` guard skips). -/
def recordErrorBlock (p : Nat × DMLResult) : String :=
  if !p.2.success then
    match p.2.errors with
    | some (DMLErrors.arr l) =>
      "Record " ++ toString (p.1 + 1) ++ ":\n" ++ concatAll (l.map errorLineArr)
    | some (DMLErrors.single e) =>
      "Record " ++ toString (p.1 + 1) ++ ":\n" ++ errorLineSingle e
    | none => ""
  else ""

/-- The tally header of the DML report. -/
def dmlHeader (operation : DMLOp) (results : List DMLResult) : String :=
  jsToUpper operation.str ++ " operation completed.\n"
  ++ "Processed " ++ toString results.length ++ " records:\n"
  ++ "- Successful: " ++ toString (successCountOf results) ++ "\n"
  ++ "- Failed: " ++ toString (failureCountOf results) ++ "\n"

/-- The full `responseText` built by `handleDMLRecords` (identical code in
`caseCreation.ts` and the `dml.ts` variant, modelled once). -/
def formatDMLResponse (operation : DMLOp) (results : List DMLResult) : String :=
  dmlHeader operation results
  ++ (if successCountOf results > 0 then
        "\nSuccessful Records:\n" ++ concatAll (results.enum.map successLine)
      else "")
  ++ "\n"
  ++ (if failureCountOf results > 0 then
        "Errors:\n" ++ concatAll (results.enum.map recordErrorBlock)
      else "")

/-- The required-field filter used both by `handleGetCaseMetadata` and by
`advancedGuidedCaseCreation` (identical code in the source). -/
def requiredFilter (fields : List SField) : List SField :=
  fields.filter (fun field =>
    !field.nillable && !field.defaultedOnCreate && field.createable
      && field.name != "CaseNumber")

/-- `records.map((x, idx) => `...`).join("\n")` for account/contact/record
choice lists. -/
def numberedNames (records : List SObj) : String :=
  String.intercalate "\n" (records.enum.map (fun p =>
    toString (p.1 + 1) ++ ". " ++ p.2.Name))

/-- Picklist choice list (`item.label || item.value` fallback). -/
def picklistChoices (values : List PicklistValue) : String :=
  String.intercalate "\n" (values.enum.map (fun p =>
    toString (p.1 + 1) ++ ". " ++ (if p.2.label != "" then p.2.label else p.2.value)))

namespace CaseCreationTs

/-- Embedding of `handleGetCaseMetadata` (caseCreation.ts).  The source's
`picklistFields` local is computed but never used in the response text and is
omitted here. -/
def handleGetCaseMetadata (conn : Conn) : M HandlerResult :=
  M.tryCatch
    (do
      let caseDescribe ← callDescribe conn "Case"
      let requiredFields := requiredFilter caseDescribe
      let text :=
        "Case Object Metadata:\n\nRequired Fields:\n"
        ++ String.intercalate "\n" (requiredFields.map (fun field =>
             "- " ++ field.label ++ " (" ++ field.name ++ "): " ++ field.ftype))
        ++ "\n\n"
        ++ "GUIDED CASE CREATION PROCESS - FOLLOW THESE STEPS IN ORDER:\n\n"
        ++ "1. FIRST STEP: Use the 'salesforce_search_accounts' tool to help the user find and select an account\n"
        ++ "   - Ask the user for an account name to search for\n"
        ++ "   - Once they provide a name, call salesforce_search_accounts with their search term\n"
        ++ "   - Present the results and ask them to select an account by number\n\n"
        ++ "2. SECOND STEP: After the user selects an account, use the 'salesforce_search_contacts' tool\n"
        ++ "   - Call salesforce_search_contacts with the selected accountId\n"
        ++ "   - Present the contact results and ask the user to select a contact by number\n\n"
        ++ "3. THIRD STEP: Ask for the Subject field (one field at a time)\n"
        ++ "   - Ask the user to provide a subject for the case\n"
        ++ "   - Wait for their response before proceeding\n\n"
        ++ "4. FOURTH STEP: Ask for the Description field (one field at a time)\n"
        ++ "   - Ask the user to provide a detailed description of the issue\n"
        ++ "   - Wait for their response before proceeding\n\n"
        ++ "5. FIFTH STEP: For each picklist field (Priority, Status, Type, Origin), use the salesforce_get_picklist_values tool\n"
        ++ "   - Call salesforce_get_picklist_values with fieldName=\"Priority\"\n"
        ++ "   - Present the options and ask the user to select one\n"
        ++ "   - Wait for their response before proceeding to the next field\n"
        ++ "   - Repeat for Status, Type, and Origin fields\n\n"
        ++ "6. FINAL STEP: After collecting all required information, use the 'salesforce_create_case' tool\n"
        ++ "   - Call salesforce_create_case with all the collected information\n"
        ++ "   - Confirm to the user that the case has been created\n\n"
        ++ "IMPORTANT: Ask for ONE FIELD AT A TIME and wait for the user's response before proceeding to the next field."
      pure { text := text, isError := false })
    (fun e => pure { text := "Error getting case metadata: " ++ e, isError := true })

/-- Embedding of `handleSearchAccounts` (caseCreation.ts). -/
def handleSearchAccounts (conn : Conn) (searchTerm : String) : M HandlerResult :=
  M.tryCatch
    (do
      let accounts ← callFindLike conn "Account" searchTerm
      if accounts.length = 0 then
        pure { text := "No accounts found matching your search criteria.", isError := false }
      else
        let text :=
          "Found " ++ toString accounts.length ++ " accounts matching \"" ++ searchTerm
          ++ "\":\n\n"
          ++ String.intercalate "\n" (accounts.enum.map (fun p =>
               toString (p.1 + 1) ++ ". " ++ p.2.Name ++ " (ID: " ++ p.2.Id ++ ")"))
        pure { text := text, isError := false })
    (fun e => pure { text := "Error searching accounts: " ++ e, isError := true })

/-- Embedding of `handleSearchContacts` (caseCreation.ts). -/
def handleSearchContacts (conn : Conn) (accountId : String) : M HandlerResult :=
  M.tryCatch
    (do
      let account ← callRetrieve conn "Account" accountId
      let contacts ← callFindContacts conn accountId
      if contacts.length = 0 then
        pure { text := "No contacts found for account \"" ++ account.Name ++ "\" (ID: " ++ accountId ++ ").", isError := false }
      else
        let text :=
          "Found " ++ toString contacts.length ++ " contacts for account \"" ++ account.Name
          ++ "\":\n\n"
          ++ String.intercalate "\n\n" (contacts.enum.map (fun p =>
               toString (p.1 + 1) ++ ". " ++ p.2.Name ++ " (ID: " ++ p.2.Id ++ ")\n   Email: "
               ++ (if optTruthy p.2.Email then jsShow p.2.Email else "N/A")
               ++ "\n   Phone: "
               ++ (if optTruthy p.2.Phone then jsShow p.2.Phone else "N/A")))
        pure { text := text, isError := false })
    (fun e => pure { text := "Error searching contacts: " ++ e, isError := true })

/-- Arguments of `handleCreateCase` (salesforce_create_case tool schema). -/
structure CreateCaseArgs where
  subject : String
  description : String
  priority : String
  status : String
  accountId : String
  contactId : Option String := none
  caseType : Option String := none
  origin : Option String := none
  additionalFields : Option (List (String × FieldVal)) := none

/-- `Object.assign(target, source)`: copy the source's keys in order,
later entries overriding earlier ones and the target's values. -/
def assignFields (target : Rec) (source : List (String × FieldVal)) : Rec :=
  source.foldl (fun acc p => setField acc p.1 p.2) target

/-- The `caseRecord` that `handleCreateCase` assembles before its `create`
call (caseCreation.ts: named fields first, then optional ContactId / Type /
Origin, then `Object.assign` of `additionalFields`). -/
def buildCaseRecord (args : CreateCaseArgs) : Rec :=
  let caseRecord : Rec :=
    [("Subject", FieldVal.s args.subject),
     ("Description", FieldVal.s args.description),
     ("Priority", FieldVal.s args.priority),
     ("Status", FieldVal.s args.status),
     ("AccountId", FieldVal.s args.accountId)]
  let caseRecord :=
    match args.contactId with
    | some cid => if cid != "" then setField caseRecord "ContactId" (FieldVal.s cid) else caseRecord
    | none => caseRecord
  let caseRecord :=
    match args.caseType with
    | some t => if t != "" then setField caseRecord "Type" (FieldVal.s t) else caseRecord
    | none => caseRecord
  let caseRecord :=
    match args.origin with
    | some o => if o != "" then setField caseRecord "Origin" (FieldVal.s o) else caseRecord
    | none => caseRecord
  match args.additionalFields with
  | some af => assignFields caseRecord af
  | none => caseRecord

/-- `result.errors?.join(', ')` interpolated into the failure message:
`undefined` when absent; joining an array of error objects yields their JS
string forms; a single non-array errors object has no `join`, its JS string
form stands in. -/
def joinedErrorsText : Option DMLErrors → String
  | none => "undefined"
  | some (DMLErrors.arr l) => String.intercalate ", " (l.map (fun _ => "[object Object]"))
  | some (DMLErrors.single _) => "[object Object]"

/-- Embedding of `handleCreateCase` (caseCreation.ts). -/
def handleCreateCase (conn : Conn) (args : CreateCaseArgs) : M HandlerResult :=
  M.tryCatch
    (do
      let result ← callCreateOne conn "Case" (buildCaseRecord args)
      if result.success then
        let instanceUrl := if optTruthy conn.instanceUrl then conn.instanceUrl else conn.envInstanceUrl
        let caseUrl := jsShow instanceUrl ++ "/lightning/r/Case/" ++ jsShow result.id ++ "/view"
        let text :=
          "The case has been created successfully!\n\nCase Details:\n\n- Case ID: "
          ++ jsShow result.id ++ "\n- Subject: " ++ args.subject ++ "\n- Priority: "
          ++ args.priority ++ "\n- Status: " ++ args.status
          ++ "\n\nYou can view the case at: " ++ caseUrl
        pure { text := text, isError := false }
      else
        pure { text := "Failed to create case: " ++ joinedErrorsText result.errors, isError := true })
    (fun e => pure { text := "Error creating case: " ++ e, isError := true })

/-- Embedding of `handleGetPicklistValues` (caseCreation.ts). -/
def handleGetPicklistValues (conn : Conn) (fieldName : String) : M HandlerResult :=
  M.tryCatch
    (do
      let caseDescribe ← callDescribe conn "Case"
      match caseDescribe.find? (fun f => f.name = fieldName) with
      | none =>
        pure { text := "Field '" ++ fieldName ++ "' not found on Case object.", isError := true }
      | some field =>
        if field.ftype != "picklist" then
          pure { text := "Field '" ++ fieldName ++ "' is not a picklist field.", isError := true }
        else
          let text :=
            "Picklist values for " ++ field.label ++ " (" ++ fieldName ++ "):\n\n"
            ++ String.intercalate "\n" (field.picklistValues.enum.map (fun p =>
                 toString (p.1 + 1) ++ ". " ++ p.2.label
                 ++ (if p.2.defaultValue then " (Default)" else "")))
            ++ "\n\nPlease ask the user to select one of these values for the "
            ++ field.label ++ " field."
          pure { text := text, isError := false })
    (fun e => pure { text := "Error getting picklist values: " ++ e, isError := true })

/-- Account step of `advancedGuidedCaseCreation` (caseCreation.ts lines
474-495): search, fail on zero matches, auto-select a unique match, otherwise
prompt for a 1-based choice and abort on an invalid one. -/
def acquireAccount (conn : Conn) : M SObj := do
  let accountSearchString ← promptUser "Enter a search string to filter accounts:"
  let accounts ← callFindLike conn "Account" accountSearchString
  if accounts.length = 0 then
    M.throw "No accounts found matching your search criteria. Please try again with a different search term."
  else if h1 : accounts.length = 1 then
    pure (accounts.get ⟨0, by omega⟩)
  else do
    let input ← promptUser ("Select an account:\n" ++ numberedNames accounts)
    match parseIntJS input with
    | none => M.throw "Invalid account selection. Please enter a valid number from the list."
    | some n =>
      if h2 : 1 ≤ n ∧ n ≤ (accounts.length : Int) then
        pure (accounts.get ⟨(n - 1).toNat, by omega⟩)
      else
        M.throw "Invalid account selection. Please enter a valid number from the list."

/-- Contact step (lines 499-514): an optional selection; blank skips, and a
non-numeric or out-of-range selection silently leaves `ContactId` unset. -/
def acquireContact (conn : Conn) (accountId : String) (caseRecord : Rec) : M Rec := do
  let contacts ← callFindContacts conn accountId
  if contacts.length > 0 then do
    let contactSelectionInput ← promptUser
      ("Select a contact for this case (or press Enter to skip):\n" ++ numberedNames contacts)
    if jsTrim contactSelectionInput != "" then
      match parseIntJS contactSelectionInput with
      | some n =>
        if h : 1 ≤ n ∧ n ≤ (contacts.length : Int) then
          pure (setField caseRecord "ContactId"
            (FieldVal.s (contacts.get ⟨(n - 1).toNat, by omega⟩).Id))
        else
          pure caseRecord
      | none => pure caseRecord
    else
      pure caseRecord
  else
    pure caseRecord

/-- The `while (x.trim() === "")` re-prompt loop of the web-contact fields:
consume scripted lines until one is non-blank after trimming; each consumed
value is a `promptUser` output (already trimmed once). -/
def promptUntilNonEmptyGo : List String → List RemoteCall → Except String String × St
  | [], trace => (Except.error "[model] input stream exhausted: promptUser blocks", ⟨[], trace⟩)
  | line :: rest, trace =>
    if jsTrim (jsTrim line) = "" then promptUntilNonEmptyGo rest trace
    else (Except.ok (jsTrim line), ⟨rest, trace⟩)

def promptUntilNonEmpty (_message : String) : M String := fun st =>
  promptUntilNonEmptyGo st.script st.trace

/-- Web-contact step (lines 516-537): when no contact was selected, require
non-empty SuppliedEmail and SuppliedName, re-prompting until satisfied. -/
def acquireWebContactInfo (caseRecord : Rec) : M Rec := do
  if !truthyField caseRecord "ContactId" then do
    let webEmail ← promptUntilNonEmpty "Web Email (required):"
    let caseRecord := setField caseRecord "SuppliedEmail" (FieldVal.s webEmail)
    let webName ← promptUntilNonEmpty "Web Name (required):"
    pure (setField caseRecord "SuppliedName" (FieldVal.s webName))
  else
    pure caseRecord

/-- Subject step (lines 540-543). -/
def acquireSubject (caseRecord : Rec) : M Rec := do
  if !truthyField caseRecord "Subject" then do
    let subject ← promptUser "Enter a subject for this case:"
    pure (setField caseRecord "Subject" (FieldVal.s subject))
  else
    pure caseRecord

/-- Description step (lines 546-551): set it, then delete it again when the
stored value trims to the empty string. -/
def acquireDescription (caseRecord : Rec) : M Rec := do
  if !truthyField caseRecord "Description" then do
    let description ← promptUser "Enter a description for this case (press Enter to skip):"
    let caseRecord := setField caseRecord "Description" (FieldVal.s description)
    if jsTrim description = "" then
      pure (deleteField caseRecord "Description")
    else
      pure caseRecord
  else
    pure caseRecord

/-- The Origin / Status / Priority picklist steps (lines 554-590; three
textually identical blocks, parametrised here by field name and prompt).  A
non-numeric or out-of-range selection silently leaves the field unset. -/
def acquirePicklist (caseDescribe : List SField) (fieldName : String)
    (promptLabel : String) (caseRecord : Rec) : M Rec := do
  if !truthyField caseRecord fieldName then
    match caseDescribe.find? (fun f => f.name = fieldName) with
    | some field =>
      if hp : field.picklistValues.length > 0 then do
        let input ← promptUser (promptLabel ++ picklistChoices field.picklistValues)
        match parseIntJS input with
        | some n =>
          if h : 1 ≤ n ∧ n ≤ (field.picklistValues.length : Int) then
            pure (setField caseRecord fieldName
              (FieldVal.s (field.picklistValues.get ⟨(n - 1).toNat, by omega⟩).value))
          else
            pure caseRecord
        | none => pure caseRecord
      else
        pure caseRecord
    | none => pure caseRecord
  else
    pure caseRecord

/-- The scalar branch of the required-fields loop (lines 648-677): the
`switch (field.type)` that computes `fieldValue`, prompting once and, for the
numeric types, throwing on input that does not parse. -/
def promptScalarField (field : SField) : M FieldVal :=
  match field.ftype with
  | "boolean" => do
    let boolResponse ← promptUser (field.label ++ " (true/false):")
    pure (FieldVal.b (jsToLower boolResponse == "true"))
  | "date" => do
    let v ← promptUser (field.label ++ " (YYYY-MM-DD):")
    pure (FieldVal.s v)
  | "datetime" => do
    let v ← promptUser (field.label ++ " (YYYY-MM-DDTHH:MM:SS):")
    pure (FieldVal.s v)
  | "double" | "int" | "currency" => do
    let numResponse ← promptUser (field.label ++ ":")
    match parseFloatJS numResponse with
    | none => M.throw ("Invalid number format for " ++ field.label)
    | some q => pure (FieldVal.n q)
  | _ => do
    let v ← promptUser (field.label ++ ":")
    pure (FieldVal.s v)

/-- One iteration of the remaining-required-fields loop (lines 593-680). -/
def processRequiredField (conn : Conn) (field : SField) (caseRecord : Rec) : M Rec :=
  if field.name = "AccountId" ∨ field.name = "ContactId" ∨ field.name = "Subject"
      ∨ field.name = "Description" ∨ field.name = "Origin" ∨ field.name = "Status"
      ∨ field.name = "Priority" ∨ (getField caseRecord field.name).isSome then
    pure caseRecord
  else if field.ftype = "reference" ∧ field.referenceTo.length > 0 then do
    let objectName := field.referenceTo.getD 0 ""
    let searchString ← promptUser ("Enter a search string to find " ++ field.label ++ ":")
    M.tryCatch
      (do
        let records ← callFindLike conn objectName searchString
        if records.length = 0 then
          M.throw ("No " ++ objectName ++ " records found matching your search criteria.")
        else if h1 : records.length = 1 then
          pure (setField caseRecord field.name (FieldVal.s (records.get ⟨0, by omega⟩).Id))
        else do
          let input ← promptUser ("Select a " ++ field.label ++ ":\n" ++ numberedNames records)
          match parseIntJS input with
          | none =>
            M.throw ("Invalid " ++ objectName ++ " selection. Please enter a valid number from the list.")
          | some n =>
            if h2 : 1 ≤ n ∧ n ≤ (records.length : Int) then
              pure (setField caseRecord field.name
                (FieldVal.s (records.get ⟨(n - 1).toNat, by omega⟩).Id))
            else
              M.throw ("Invalid " ++ objectName ++ " selection. Please enter a valid number from the list."))
      (fun _error => M.throw ("Unable to find " ++ field.label ++ " records. Please try again."))
  else if field.ftype = "picklist" ∧ field.picklistValues.length > 0 then do
    let input ← promptUser ("Select a " ++ field.label ++ ":\n" ++ picklistChoices field.picklistValues)
    match parseIntJS input with
    | none =>
      M.throw ("Invalid " ++ field.label ++ " selection. Please enter a valid number from the list.")
    | some n =>
      if h : 1 ≤ n ∧ n ≤ (field.picklistValues.length : Int) then
        pure (setField caseRecord field.name
          (FieldVal.s (field.picklistValues.get ⟨(n - 1).toNat, by omega⟩).value))
      else
        M.throw ("Invalid " ++ field.label ++ " selection. Please enter a valid number from the list.")
  else do
    let fieldValue ← promptScalarField field
    pure (setField caseRecord field.name fieldValue)

/-- The `for (const field of requiredFields)` loop. -/
def processRequiredFields (conn : Conn) : List SField → Rec → M Rec
  | [], caseRecord => pure caseRecord
  | field :: rest, caseRecord => do
    let caseRecord ← processRequiredField conn field caseRecord
    processRequiredFields conn rest caseRecord

/-- Everything `advancedGuidedCaseCreation` does before the final
confirmation prompt: the record handed to confirmation. -/
def flowPhases (conn : Conn) : M Rec := do
  let caseDescribe ← callDescribe conn "Case"
  let requiredFields := requiredFilter caseDescribe
  let selectedAccount ← acquireAccount conn
  let caseRecord : Rec := setField [] "AccountId" (FieldVal.s selectedAccount.Id)
  let caseRecord ← acquireContact conn selectedAccount.Id caseRecord
  let caseRecord ← acquireWebContactInfo caseRecord
  let caseRecord ← acquireSubject caseRecord
  let caseRecord ← acquireDescription caseRecord
  let caseRecord ← acquirePicklist caseDescribe "Origin" "Select an origin:\n" caseRecord
  let caseRecord ← acquirePicklist caseDescribe "Status" "Select a status:\n" caseRecord
  let caseRecord ← acquirePicklist caseDescribe "Priority" "Select a priority:\n" caseRecord
  processRequiredFields conn requiredFields caseRecord

/-- Final confirmation (lines 683-695; the console summary has no observable
effect and is not modelled): anything whose lower-casing is not "y" throws. -/
def confirmCase (caseRecord : Rec) : M Rec := do
  let confirmation ← promptUser "\nCreate this case? (Y/N):"
  if jsToLower confirmation != "y" then
    M.throw "Case creation canceled by user."
  else
    pure caseRecord

/-- Embedding of `advancedGuidedCaseCreation` (caseCreation.ts lines 462-696). -/
def advancedGuidedCaseCreation (conn : Conn) : M Rec := do
  let caseRecord ← flowPhases conn
  confirmCase caseRecord

/-- Embedding of `handleDMLRecords`, caseCreation.ts variant (lines 706-798):
insert on Case always diverts to the advanced guided flow.  The remote result
is already a list in this model, so `Array.isArray(result) ? result : [result]`
is the identity. -/
def handleDMLRecords (conn : Conn) (args : DMLArgs) : M HandlerResult := do
  let result ←
    match args.operation with
    | DMLOp.insert =>
      if args.objectName = "Case" then do
        let caseDetails ← advancedGuidedCaseCreation conn
        callCreate conn args.objectName [caseDetails]
      else
        callCreate conn args.objectName args.records
    | DMLOp.update => callUpdate conn args.objectName args.records
    | DMLOp.delete => callDestroy conn args.objectName (args.records.map (fun r => getField r "Id"))
    | DMLOp.upsert =>
      match args.externalIdField with
      | none => M.throw "externalIdField is required for upsert operations"
      | some s =>
        if s = "" then M.throw "externalIdField is required for upsert operations"
        else callUpsert conn args.objectName args.records s
  pure { text := formatDMLResponse args.operation result, isError := false }

end CaseCreationTs

namespace DmlTs

/-- The early-return text of the dml.ts variant for insert on Case. -/
def caseRejectionText : String :=
  "For creating Case records, please use the dedicated case creation tools:\n"
  ++ "1. salesforce_get_case_metadata - Get required fields and picklist values\n"
  ++ "2. salesforce_search_accounts - Search for accounts\n"
  ++ "3. salesforce_search_contacts - Search for contacts\n"
  ++ "4. salesforce_get_picklist_values - Get picklist values for a specific field\n"
  ++ "5. salesforce_create_case - Create the case with collected information\n\n"
  ++ "These tools provide a better guided experience for creating cases."

/-- Embedding of `handleDMLRecords`, dml.ts variant (src/unnamed/part_001):
identical to the caseCreation.ts variant except that insert on Case returns an
`isError: true` redirection immediately, before the shared formatting.  The
early `return` of the source is modelled by finishing that branch directly. -/
def handleDMLRecords (_conn : Conn) (args : DMLArgs) : M HandlerResult :=
  match args.operation with
  | DMLOp.insert =>
    if args.objectName = "Case" then
      M.pure { text := caseRejectionText, isError := true }
    else do
      let result ← callCreate _conn args.objectName args.records
      pure { text := formatDMLResponse args.operation result, isError := false }
  | DMLOp.update => do
    let result ← callUpdate _conn args.objectName args.records
    pure { text := formatDMLResponse args.operation result, isError := false }
  | DMLOp.delete => do
    let result ← callDestroy _conn args.objectName (args.records.map (fun r => getField r "Id"))
    pure { text := formatDMLResponse args.operation result, isError := false }
  | DMLOp.upsert =>
    match args.externalIdField with
    | none => M.throw "externalIdField is required for upsert operations"
    | some s =>
      if s = "" then M.throw "externalIdField is required for upsert operations"
      else do
        let result ← callUpsert _conn args.objectName args.records s
        pure { text := formatDMLResponse args.operation result, isError := false }

end DmlTs


/-! Concrete fixtures used by witnesses and counterexamples. -/

/-- A single matching account. -/
def accAcme : SObj := { Id := "001A", Name := "Acme Corp" }

/-- A single contact of that account. -/
def conBob : SObj := { Id := "003B", Name := "Bob Jones" }

/-- A successful per-record outcome. -/
def okResult : DMLResult := { success := true, id := some "500A" }

/-- A connection whose search for "acme" finds exactly one account with no
contacts, whose Case metadata is empty, and whose DML calls succeed with one
outcome per submitted record. -/
def conn0 : Conn where
  describeFields := fun _ => Except.ok []
  findLike := fun objectName searchTerm =>
    if objectName = "Account" ∧ searchTerm = "acme" then Except.ok [accAcme] else Except.ok []
  findContacts := fun _ => Except.ok []
  retrieve := fun _ _ => Except.ok accAcme
  create := fun _ records => Except.ok (records.map (fun _ => okResult))
  createOne := fun _ _ => Except.ok okResult
  update := fun _ records => Except.ok (records.map (fun _ => okResult))
  destroy := fun _ ids => Except.ok (ids.map (fun _ => okResult))
  upsert := fun _ records _ => Except.ok (records.map (fun _ => okResult))

/-- Like `conn0`, but the account has one contact. -/
def conn1 : Conn where
  describeFields := fun _ => Except.ok []
  findLike := fun objectName searchTerm =>
    if objectName = "Account" ∧ searchTerm = "acme" then Except.ok [accAcme] else Except.ok []
  findContacts := fun accountId => if accountId = "001A" then Except.ok [conBob] else Except.ok []
  retrieve := fun _ _ => Except.ok accAcme
  create := fun _ records => Except.ok (records.map (fun _ => okResult))
  createOne := fun _ _ => Except.ok okResult
  update := fun _ records => Except.ok (records.map (fun _ => okResult))
  destroy := fun _ ids => Except.ok (ids.map (fun _ => okResult))
  upsert := fun _ records _ => Except.ok (records.map (fun _ => okResult))

/-- A mixed DML batch outcome: one success, one structured failure. -/
def mixedResults : List DMLResult :=
  [{ success := true, id := some "001X" },
   { success := false, errors := some (DMLErrors.arr
      [{ message := "Required field missing", statusCode := some "REQUIRED_FIELD_MISSING",
         fields := some ["Subject"] }]) }]

/-- A connection whose `update` completes with the mixed batch outcome. -/
def connMix : Conn where
  describeFields := fun _ => Except.ok []
  findLike := fun _ _ => Except.ok []
  findContacts := fun _ => Except.ok []
  retrieve := fun _ _ => Except.ok accAcme
  create := fun _ records => Except.ok (records.map (fun _ => okResult))
  createOne := fun _ _ => Except.ok okResult
  update := fun _ _ => Except.ok mixedResults
  destroy := fun _ ids => Except.ok (ids.map (fun _ => okResult))
  upsert := fun _ records _ => Except.ok (records.map (fun _ => okResult))

/-- A one-value Origin picklist field. -/
def fieldOrigin : SField :=
  { name := "Origin", label := "Origin", ftype := "picklist",
    picklistValues := [{ label := "Phone", value := "Phone" }] }

/-- A connection whose `update` rejects remotely. -/
def connBoom : Conn where
  describeFields := fun _ => Except.ok []
  findLike := fun _ _ => Except.ok []
  findContacts := fun _ => Except.ok []
  retrieve := fun _ _ => Except.ok accAcme
  create := fun _ _ => Except.error "Remote create rejected"
  createOne := fun _ _ => Except.error "Remote create rejected"
  update := fun _ _ => Except.error "Remote update rejected"
  destroy := fun _ _ => Except.error "Remote destroy rejected"
  upsert := fun _ _ _ => Except.error "Remote upsert rejected"

deriving instance DecidableEq for Except

/-- Both web-contact fields are present with non-empty string values. -/
def suppliedNonEmpty (r : Rec) : Prop :=
  (∃ e, getField r "SuppliedEmail" = some (FieldVal.s e) ∧ e ≠ "") ∧
  (∃ n, getField r "SuppliedName" = some (FieldVal.s n) ∧ n ≠ "")

/-- The invariant the guided flow maintains from the web-contact step on:
either a truthy ContactId, or non-empty supplied email and name. -/
def contactOrSupplied (r : Rec) : Prop :=
  truthyField r "ContactId" = true ∨ suppliedNonEmpty r

/-- A selection input is invalid for a list of `n` presented choices:
non-numeric, or a 1-based index outside `[1, n]`. -/
def invalidSelection (input : String) (n : Nat) : Bool :=
  match parseIntJS input with
  | none => true
  | some k => k < 1 || (n : Int) < k

/-- The remote DML endpoints return one per-record outcome per submitted
record (the bulk-API contract the tally implicitly relies on). -/
def lengthPreserving (conn : Conn) : Prop :=
  (∀ o rs res, conn.create o rs = Except.ok res → res.length = rs.length) ∧
  (∀ o rs res, conn.update o rs = Except.ok res → res.length = rs.length) ∧
  (∀ o ids res, conn.destroy o ids = Except.ok res → res.length = ids.length) ∧
  (∀ o rs s res, conn.upsert o rs s = Except.ok res → res.length = rs.length)

/-- The value the last entry of an association list binds a key to:
`Object.assign` applies the source's entries in order, so the last entry
for a key is the one that survives in the target. -/
def lookupLast : List (String × FieldVal) → String → Option FieldVal
  | [], _ => none
  | p :: rest, k =>
    match lookupLast rest k with
    | some v => some v
    | none => if p.1 = k then some p.2 else none

/-- A computation that never adds a create call to the trace. -/
def addsNoCreates {α : Type} (m : M α) : Prop :=
  ∀ st r st', m st = (r, st') → createCalls st'.trace = createCalls st.trace

/-! General lemmas about the computation monad, records and traces. -/

theorem bind_is_Mbind {α β : Type} (m : M α) (f : α → M β) :
    (m >>= f) = M.bind m f := rfl

theorem pure_is_Mpure {α : Type} (a : α) : (pure a : M α) = M.pure a := rfl

theorem M.bind_eq_ok {α β : Type} {m : M α} {f : α → M β} {st st' : St} {b : β}
    (h : M.bind m f st = (Except.ok b, st')) :
    ∃ a st1, m st = (Except.ok a, st1) ∧ f a st1 = (Except.ok b, st') := by
  unfold M.bind at h
  rcases hm : m st with ⟨r, st1⟩
  rw [hm] at h
  cases r with
  | ok a => exact ⟨a, st1, rfl, h⟩
  | error e => simp at h

theorem M.bind_eq_error {α β : Type} {m : M α} {f : α → M β} {st st' : St} {e : String}
    (h : M.bind m f st = (Except.error e, st')) :
    m st = (Except.error e, st') ∨
      ∃ a st1, m st = (Except.ok a, st1) ∧ f a st1 = (Except.error e, st') := by
  unfold M.bind at h
  rcases hm : m st with ⟨r, st1⟩
  rw [hm] at h
  cases r with
  | ok a => exact Or.inr ⟨a, st1, rfl, h⟩
  | error e' =>
    simp only [Prod.mk.injEq, Except.error.injEq] at h
    obtain ⟨he, hst⟩ := h
    exact Or.inl (by rw [he, hst])

theorem M.bind_of_ok {α β : Type} {m : M α} {st st1 : St} {a : α} (f : α → M β)
    (h : m st = (Except.ok a, st1)) :
    M.bind m f st = f a st1 := by
  unfold M.bind
  rw [h]

theorem M.bind_of_error {α β : Type} {m : M α} {st st1 : St} {e : String} (f : α → M β)
    (h : m st = (Except.error e, st1)) :
    M.bind m f st = (Except.error e, st1) := by
  unfold M.bind
  rw [h]

theorem getField_setField_same (r : Rec) (k : String) (v : FieldVal) :
    getField (setField r k v) k = some v := by
  induction r with
  | nil => simp [setField, getField]
  | cons p rest ih =>
    by_cases h : p.1 = k
    · simp [setField, getField, h]
    · simp [setField, getField, h, ih]

theorem getField_setField_ne (r : Rec) (k k' : String) (v : FieldVal) (h : k' ≠ k) :
    getField (setField r k v) k' = getField r k' := by
  have hkk : k ≠ k' := Ne.symm h
  induction r with
  | nil => simp [setField, getField, hkk]
  | cons p rest ih =>
    rcases p with ⟨pk, pv⟩
    by_cases hp : pk = k
    · subst hp
      simp [setField, getField, hkk]
    · by_cases hp' : pk = k'
      · simp [setField, getField, hp, hp', h]
      · simp [setField, getField, hp, hp', ih]

theorem getField_deleteField_ne (r : Rec) (k k' : String) (h : k' ≠ k) :
    getField (deleteField r k) k' = getField r k' := by
  induction r with
  | nil => simp [deleteField, getField]
  | cons p rest ih =>
    rcases p with ⟨pk, pv⟩
    by_cases hp : pk = k
    · subst hp
      simp only [deleteField, List.filter_cons, bne_self_eq_false, if_false,
        Bool.false_eq_true, reduceIte] at ih ⊢
      rw [ih]
      simp [getField, Ne.symm h]
    · have hb : (pk != k) = true := by simpa using hp
      simp only [deleteField, List.filter_cons, hb, if_true] at ih ⊢
      by_cases hp' : pk = k'
      · simp [getField, hp', ih]
      · simp [getField, hp', ih]

theorem truthyField_setField_ne (r : Rec) (k k' : String) (v : FieldVal) (h : k' ≠ k) :
    truthyField (setField r k v) k' = truthyField r k' := by
  unfold truthyField
  rw [getField_setField_ne r k k' v h]

theorem createCalls_append (t1 t2 : List RemoteCall) :
    createCalls (t1 ++ t2) = createCalls t1 ++ createCalls t2 := by
  simp [createCalls, List.filter_append]

theorem addsNoCreates_pure {α : Type} (a : α) : addsNoCreates (M.pure a) := by
  intro st r st' h
  unfold M.pure at h
  cases h
  rfl

theorem addsNoCreates_pure' {α : Type} (a : α) : addsNoCreates (pure a : M α) :=
  addsNoCreates_pure a

theorem addsNoCreates_throw {α : Type} (e : String) : addsNoCreates (M.throw e : M α) := by
  intro st r st' h
  unfold M.throw at h
  cases h
  rfl

theorem addsNoCreates_promptUser (message : String) : addsNoCreates (promptUser message) := by
  intro st r st' h
  unfold promptUser at h
  rcases st with ⟨script, trace⟩
  cases script with
  | nil => cases h; rfl
  | cons line rest => cases h; rfl

theorem addsNoCreates_callDescribe (conn : Conn) (objectName : String) :
    addsNoCreates (callDescribe conn objectName) := by
  intro st r st' h
  unfold callDescribe callRemote at h
  cases h
  simp [createCalls_append, createCalls]

theorem addsNoCreates_callFindLike (conn : Conn) (objectName searchTerm : String) :
    addsNoCreates (callFindLike conn objectName searchTerm) := by
  intro st r st' h
  unfold callFindLike callRemote at h
  cases h
  simp [createCalls_append, createCalls]

theorem addsNoCreates_callFindContacts (conn : Conn) (accountId : String) :
    addsNoCreates (callFindContacts conn accountId) := by
  intro st r st' h
  unfold callFindContacts callRemote at h
  cases h
  simp [createCalls_append, createCalls]

theorem addsNoCreates_bind {α β : Type} {m : M α} {f : α → M β}
    (hm : addsNoCreates m) (hf : ∀ a, addsNoCreates (f a)) :
    addsNoCreates (M.bind m f) := by
  intro st r st' h
  unfold M.bind at h
  rcases hm1 : m st with ⟨r1, st1⟩
  rw [hm1] at h
  cases r1 with
  | ok a =>
    have h1 := hm st (Except.ok a) st1 hm1
    have h2 := hf a st1 r st' h
    rw [h2, h1]
  | error e =>
    simp only [Prod.mk.injEq] at h
    obtain ⟨he, hst⟩ := h
    rw [← hst]
    exact hm st (Except.error e) st1 hm1

theorem addsNoCreates_tryCatch {α : Type} {m : M α} {h : String → M α}
    (hm : addsNoCreates m) (hh : ∀ e, addsNoCreates (h e)) :
    addsNoCreates (M.tryCatch m h) := by
  intro st r st' hr
  unfold M.tryCatch at hr
  rcases hm1 : m st with ⟨r1, st1⟩
  rw [hm1] at hr
  cases r1 with
  | ok a =>
    simp only [Prod.mk.injEq] at hr
    obtain ⟨hr1, hr2⟩ := hr
    rw [← hr2]
    exact hm st (Except.ok a) st1 hm1
  | error e =>
    have h1 := hm st (Except.error e) st1 hm1
    have h2 := hh e st1 r st' hr
    rw [h2, h1]

theorem addsNoCreates_promptUntilNonEmpty (message : String) :
    addsNoCreates (CaseCreationTs.promptUntilNonEmpty message) := by
  intro st r st' h
  unfold CaseCreationTs.promptUntilNonEmpty at h
  rcases st with ⟨script, trace⟩
  induction script generalizing r st' with
  | nil =>
    unfold CaseCreationTs.promptUntilNonEmptyGo at h
    cases h
    rfl
  | cons line rest ih =>
    unfold CaseCreationTs.promptUntilNonEmptyGo at h
    by_cases hb : jsTrim (jsTrim line) = ""
    · rw [if_pos hb] at h
      exact ih r st' h
    · rw [if_neg hb] at h
      cases h
      rfl

theorem addsNoCreates_acquireAccount (conn : Conn) :
    addsNoCreates (CaseCreationTs.acquireAccount conn) := by
  unfold CaseCreationTs.acquireAccount
  simp only [bind_is_Mbind, pure_is_Mpure]
  refine addsNoCreates_bind (addsNoCreates_promptUser _) (fun searchString => ?_)
  refine addsNoCreates_bind (addsNoCreates_callFindLike _ _ _) (fun accounts => ?_)
  split
  · exact addsNoCreates_throw _
  · split
    · exact addsNoCreates_pure _
    · refine addsNoCreates_bind (addsNoCreates_promptUser _) (fun input => ?_)
      split
      · exact addsNoCreates_throw _
      · split
        · exact addsNoCreates_pure _
        · exact addsNoCreates_throw _

theorem addsNoCreates_acquireContact (conn : Conn) (accountId : String) (caseRecord : Rec) :
    addsNoCreates (CaseCreationTs.acquireContact conn accountId caseRecord) := by
  unfold CaseCreationTs.acquireContact
  simp only [bind_is_Mbind, pure_is_Mpure]
  refine addsNoCreates_bind (addsNoCreates_callFindContacts _ _) (fun contacts => ?_)
  split
  · refine addsNoCreates_bind (addsNoCreates_promptUser _) (fun input => ?_)
    split
    · split
      · split
        · exact addsNoCreates_pure _
        · exact addsNoCreates_pure _
      · exact addsNoCreates_pure _
    · exact addsNoCreates_pure _
  · exact addsNoCreates_pure _

theorem addsNoCreates_acquireWebContactInfo (caseRecord : Rec) :
    addsNoCreates (CaseCreationTs.acquireWebContactInfo caseRecord) := by
  unfold CaseCreationTs.acquireWebContactInfo
  simp only [bind_is_Mbind, pure_is_Mpure]
  split
  · refine addsNoCreates_bind (addsNoCreates_promptUntilNonEmpty _) (fun webEmail => ?_)
    refine addsNoCreates_bind (addsNoCreates_promptUntilNonEmpty _) (fun webName => ?_)
    exact addsNoCreates_pure _
  · exact addsNoCreates_pure _

theorem addsNoCreates_acquireSubject (caseRecord : Rec) :
    addsNoCreates (CaseCreationTs.acquireSubject caseRecord) := by
  unfold CaseCreationTs.acquireSubject
  simp only [bind_is_Mbind, pure_is_Mpure]
  split
  · exact addsNoCreates_bind (addsNoCreates_promptUser _) (fun _ => addsNoCreates_pure _)
  · exact addsNoCreates_pure _

theorem addsNoCreates_acquireDescription (caseRecord : Rec) :
    addsNoCreates (CaseCreationTs.acquireDescription caseRecord) := by
  unfold CaseCreationTs.acquireDescription
  simp only [bind_is_Mbind, pure_is_Mpure]
  split
  · refine addsNoCreates_bind (addsNoCreates_promptUser _) (fun description => ?_)
    split
    · exact addsNoCreates_pure _
    · exact addsNoCreates_pure _
  · exact addsNoCreates_pure _

theorem addsNoCreates_acquirePicklist (caseDescribe : List SField) (fieldName : String)
    (promptLabel : String) (caseRecord : Rec) :
    addsNoCreates (CaseCreationTs.acquirePicklist caseDescribe fieldName promptLabel caseRecord) := by
  unfold CaseCreationTs.acquirePicklist
  simp only [bind_is_Mbind, pure_is_Mpure]
  split
  · split
    · split
      · refine addsNoCreates_bind (addsNoCreates_promptUser _) (fun input => ?_)
        split
        · split
          · exact addsNoCreates_pure _
          · exact addsNoCreates_pure _
        · exact addsNoCreates_pure _
      · exact addsNoCreates_pure _
    · exact addsNoCreates_pure _
  · exact addsNoCreates_pure _

theorem addsNoCreates_promptScalarField (field : SField) :
    addsNoCreates (CaseCreationTs.promptScalarField field) := by
  unfold CaseCreationTs.promptScalarField
  simp only [bind_is_Mbind, pure_is_Mpure]
  split
  · exact addsNoCreates_bind (addsNoCreates_promptUser _) (fun _ => addsNoCreates_pure _)
  · exact addsNoCreates_bind (addsNoCreates_promptUser _) (fun _ => addsNoCreates_pure _)
  · exact addsNoCreates_bind (addsNoCreates_promptUser _) (fun _ => addsNoCreates_pure _)
  · refine addsNoCreates_bind (addsNoCreates_promptUser _) (fun numResponse => ?_)
    split
    · exact addsNoCreates_throw _
    · exact addsNoCreates_pure _
  · refine addsNoCreates_bind (addsNoCreates_promptUser _) (fun numResponse => ?_)
    split
    · exact addsNoCreates_throw _
    · exact addsNoCreates_pure _
  · refine addsNoCreates_bind (addsNoCreates_promptUser _) (fun numResponse => ?_)
    split
    · exact addsNoCreates_throw _
    · exact addsNoCreates_pure _
  · exact addsNoCreates_bind (addsNoCreates_promptUser _) (fun _ => addsNoCreates_pure _)

theorem addsNoCreates_processRequiredField (conn : Conn) (field : SField) (caseRecord : Rec) :
    addsNoCreates (CaseCreationTs.processRequiredField conn field caseRecord) := by
  unfold CaseCreationTs.processRequiredField
  simp only [bind_is_Mbind, pure_is_Mpure]
  split
  · exact addsNoCreates_pure _
  · split
    · refine addsNoCreates_bind (addsNoCreates_promptUser _) (fun searchString => ?_)
      refine addsNoCreates_tryCatch ?_ (fun e => addsNoCreates_throw _)
      refine addsNoCreates_bind (addsNoCreates_callFindLike _ _ _) (fun records => ?_)
      split
      · exact addsNoCreates_throw _
      · split
        · exact addsNoCreates_pure _
        · refine addsNoCreates_bind (addsNoCreates_promptUser _) (fun input => ?_)
          split
          · exact addsNoCreates_throw _
          · split
            · exact addsNoCreates_pure _
            · exact addsNoCreates_throw _
    · split
      · refine addsNoCreates_bind (addsNoCreates_promptUser _) (fun input => ?_)
        split
        · exact addsNoCreates_throw _
        · split
          · exact addsNoCreates_pure _
          · exact addsNoCreates_throw _
      · exact addsNoCreates_bind (addsNoCreates_promptScalarField field)
          (fun fieldValue => addsNoCreates_pure _)

theorem addsNoCreates_processRequiredFields (conn : Conn) (fields : List SField) (caseRecord : Rec) :
    addsNoCreates (CaseCreationTs.processRequiredFields conn fields caseRecord) := by
  induction fields generalizing caseRecord with
  | nil =>
    unfold CaseCreationTs.processRequiredFields
    exact addsNoCreates_pure _
  | cons field rest ih =>
    unfold CaseCreationTs.processRequiredFields
    simp only [bind_is_Mbind]
    exact addsNoCreates_bind (addsNoCreates_processRequiredField conn field caseRecord) (fun r => ih r)

theorem addsNoCreates_flowPhases (conn : Conn) :
    addsNoCreates (CaseCreationTs.flowPhases conn) := by
  unfold CaseCreationTs.flowPhases
  simp only [bind_is_Mbind, pure_is_Mpure]
  refine addsNoCreates_bind (addsNoCreates_callDescribe _ _) (fun caseDescribe => ?_)
  refine addsNoCreates_bind (addsNoCreates_acquireAccount _) (fun selectedAccount => ?_)
  refine addsNoCreates_bind (addsNoCreates_acquireContact _ _ _) (fun rec1 => ?_)
  refine addsNoCreates_bind (addsNoCreates_acquireWebContactInfo _) (fun rec2 => ?_)
  refine addsNoCreates_bind (addsNoCreates_acquireSubject _) (fun rec3 => ?_)
  refine addsNoCreates_bind (addsNoCreates_acquireDescription _) (fun rec4 => ?_)
  refine addsNoCreates_bind (addsNoCreates_acquirePicklist _ _ _ _) (fun rec5 => ?_)
  refine addsNoCreates_bind (addsNoCreates_acquirePicklist _ _ _ _) (fun rec6 => ?_)
  refine addsNoCreates_bind (addsNoCreates_acquirePicklist _ _ _ _) (fun rec7 => ?_)
  exact addsNoCreates_processRequiredFields _ _ _

theorem addsNoCreates_confirmCase (caseRecord : Rec) :
    addsNoCreates (CaseCreationTs.confirmCase caseRecord) := by
  unfold CaseCreationTs.confirmCase
  simp only [bind_is_Mbind, pure_is_Mpure]
  refine addsNoCreates_bind (addsNoCreates_promptUser _) (fun confirmation => ?_)
  split
  · exact addsNoCreates_throw _
  · exact addsNoCreates_pure _

theorem addsNoCreates_advancedGuidedCaseCreation (conn : Conn) :
    addsNoCreates (CaseCreationTs.advancedGuidedCaseCreation conn) := by
  unfold CaseCreationTs.advancedGuidedCaseCreation
  simp only [bind_is_Mbind]
  exact addsNoCreates_bind (addsNoCreates_flowPhases conn) (fun r => addsNoCreates_confirmCase r)

theorem promptUntilNonEmptyGo_ok (script : List String) (trace : List RemoteCall)
    {v : String} {st' : St}
    (h : CaseCreationTs.promptUntilNonEmptyGo script trace = (Except.ok v, st')) :
    v ≠ "" := by
  induction script generalizing trace with
  | nil =>
    unfold CaseCreationTs.promptUntilNonEmptyGo at h
    simp at h
  | cons line rest ih =>
    unfold CaseCreationTs.promptUntilNonEmptyGo at h
    by_cases hb : jsTrim (jsTrim line) = ""
    · rw [if_pos hb] at h
      exact ih trace h
    · rw [if_neg hb] at h
      simp only [Prod.mk.injEq, Except.ok.injEq] at h
      obtain ⟨hv, _⟩ := h
      intro hc
      rw [hc] at hv
      apply hb
      rw [hv]
      decide

theorem promptUntilNonEmpty_ok {message v : String} {st st' : St}
    (h : CaseCreationTs.promptUntilNonEmpty message st = (Except.ok v, st')) :
    v ≠ "" := by
  unfold CaseCreationTs.promptUntilNonEmpty at h
  exact promptUntilNonEmptyGo_ok st.script st.trace h

theorem acquireWebContactInfo_ok {caseRecord rec' : Rec} {st st' : St}
    (h : CaseCreationTs.acquireWebContactInfo caseRecord st = (Except.ok rec', st')) :
    (truthyField caseRecord "ContactId" = true ∧ rec' = caseRecord) ∨
    (∃ e n, e ≠ "" ∧ n ≠ "" ∧
      rec' = setField (setField caseRecord "SuppliedEmail" (FieldVal.s e))
        "SuppliedName" (FieldVal.s n)) := by
  unfold CaseCreationTs.acquireWebContactInfo at h
  simp only [bind_is_Mbind, pure_is_Mpure] at h
  by_cases ht : truthyField caseRecord "ContactId"
  · left
    refine ⟨ht, ?_⟩
    rw [if_neg (by simp [ht])] at h
    unfold M.pure at h
    simp only [Prod.mk.injEq, Except.ok.injEq] at h
    exact h.1.symm
  · right
    rw [if_pos (by simp [ht])] at h
    obtain ⟨e, st1, he, h⟩ := M.bind_eq_ok h
    obtain ⟨n, st2, hn, h⟩ := M.bind_eq_ok h
    unfold M.pure at h
    simp only [Prod.mk.injEq, Except.ok.injEq] at h
    exact ⟨e, n, promptUntilNonEmpty_ok he, promptUntilNonEmpty_ok hn, h.1.symm⟩

theorem Mpure_ok {α : Type} {a b : α} {st st' : St}
    (h : M.pure a st = (Except.ok b, st')) : b = a ∧ st' = st := by
  unfold M.pure at h
  simp only [Prod.mk.injEq, Except.ok.injEq] at h
  exact ⟨h.1.symm, h.2.symm⟩

theorem acquireSubject_shape {caseRecord rec' : Rec} {st st' : St}
    (h : CaseCreationTs.acquireSubject caseRecord st = (Except.ok rec', st')) :
    rec' = caseRecord ∨ ∃ v, rec' = setField caseRecord "Subject" v := by
  unfold CaseCreationTs.acquireSubject at h
  simp only [bind_is_Mbind, pure_is_Mpure] at h
  by_cases ht : truthyField caseRecord "Subject"
  · rw [if_neg (by simp [ht])] at h
    exact Or.inl (Mpure_ok h).1
  · rw [if_pos (by simp [ht])] at h
    obtain ⟨s, st1, hs, h⟩ := M.bind_eq_ok h
    exact Or.inr ⟨FieldVal.s s, (Mpure_ok h).1⟩

theorem acquireDescription_shape {caseRecord rec' : Rec} {st st' : St}
    (h : CaseCreationTs.acquireDescription caseRecord st = (Except.ok rec', st')) :
    rec' = caseRecord ∨ ∃ v,
      rec' = setField caseRecord "Description" v ∨
      rec' = deleteField (setField caseRecord "Description" v) "Description" := by
  unfold CaseCreationTs.acquireDescription at h
  simp only [bind_is_Mbind, pure_is_Mpure] at h
  by_cases ht : truthyField caseRecord "Description"
  · rw [if_neg (by simp [ht])] at h
    exact Or.inl (Mpure_ok h).1
  · rw [if_pos (by simp [ht])] at h
    obtain ⟨d, st1, hd, h⟩ := M.bind_eq_ok h
    by_cases hdd : jsTrim d = ""
    · rw [if_pos hdd] at h
      exact Or.inr ⟨FieldVal.s d, Or.inr (Mpure_ok h).1⟩
    · rw [if_neg hdd] at h
      exact Or.inr ⟨FieldVal.s d, Or.inl (Mpure_ok h).1⟩

theorem acquirePicklist_shape {caseDescribe : List SField} {fieldName promptLabel : String}
    {caseRecord rec' : Rec} {st st' : St}
    (h : CaseCreationTs.acquirePicklist caseDescribe fieldName promptLabel caseRecord st
      = (Except.ok rec', st')) :
    rec' = caseRecord ∨ ∃ v, rec' = setField caseRecord fieldName v := by
  unfold CaseCreationTs.acquirePicklist at h
  simp only [bind_is_Mbind, pure_is_Mpure] at h
  by_cases ht : truthyField caseRecord fieldName
  · rw [if_neg (by simp [ht])] at h
    exact Or.inl (Mpure_ok h).1
  · rw [if_pos (by simp [ht])] at h
    rcases hf : caseDescribe.find? (fun f => f.name = fieldName) with _ | field
    · rw [hf] at h
      simp only [] at h
      exact Or.inl (Mpure_ok h).1
    · rw [hf] at h
      simp only [] at h
      by_cases hp : field.picklistValues.length > 0
      · rw [dif_pos hp] at h
        obtain ⟨input, st1, hi, h⟩ := M.bind_eq_ok h
        rcases hn : parseIntJS input with _ | n
        · rw [hn] at h
          simp only [] at h
          exact Or.inl (Mpure_ok h).1
        · rw [hn] at h
          simp only [] at h
          by_cases hr : 1 ≤ n ∧ n ≤ (field.picklistValues.length : Int)
          · rw [dif_pos hr] at h
            exact Or.inr ⟨_, (Mpure_ok h).1⟩
          · rw [dif_neg hr] at h
            exact Or.inl (Mpure_ok h).1
      · rw [dif_neg hp] at h
        exact Or.inl (Mpure_ok h).1

theorem M.throw_ne_ok {α : Type} {e : String} {b : α} {st st' : St} :
    M.throw e st ≠ (Except.ok b, st') := by
  unfold M.throw
  simp

theorem M.tryCatch_eq_ok {α : Type} {m : M α} {hc : String → M α} {st st' : St} {b : α}
    (h : M.tryCatch m hc st = (Except.ok b, st')) :
    m st = (Except.ok b, st') ∨
      ∃ e st1, m st = (Except.error e, st1) ∧ hc e st1 = (Except.ok b, st') := by
  unfold M.tryCatch at h
  rcases hm : m st with ⟨r, st1⟩
  rw [hm] at h
  cases r with
  | ok a =>
    simp only [Prod.mk.injEq, Except.ok.injEq] at h
    obtain ⟨hb, hst⟩ := h
    exact Or.inl (by rw [hb, hst])
  | error e => exact Or.inr ⟨e, st1, rfl, h⟩

theorem processRequiredField_shape {conn : Conn} {field : SField} {caseRecord rec' : Rec}
    {st st' : St}
    (h : CaseCreationTs.processRequiredField conn field caseRecord st = (Except.ok rec', st')) :
    rec' = caseRecord ∨
    ((∃ v, rec' = setField caseRecord field.name v) ∧ field.name ≠ "ContactId" ∧
      getField caseRecord field.name = none) := by
  unfold CaseCreationTs.processRequiredField at h
  simp only [bind_is_Mbind, pure_is_Mpure] at h
  by_cases hskip : field.name = "AccountId" ∨ field.name = "ContactId" ∨ field.name = "Subject"
      ∨ field.name = "Description" ∨ field.name = "Origin" ∨ field.name = "Status"
      ∨ field.name = "Priority" ∨ (getField caseRecord field.name).isSome
  · rw [if_pos hskip] at h
    exact Or.inl (Mpure_ok h).1
  · rw [if_neg hskip] at h
    push_neg at hskip
    obtain ⟨h1, h2, h3, h4, h5, h6, h7, h8⟩ := hskip
    have hnone : getField caseRecord field.name = none := by
      cases hget : getField caseRecord field.name with
      | none => rfl
      | some v => exact absurd (by simp [hget]) h8
    by_cases href : field.ftype = "reference" ∧ field.referenceTo.length > 0
    · rw [if_pos href] at h
      obtain ⟨searchString, st1, hs, h⟩ := M.bind_eq_ok h
      rcases M.tryCatch_eq_ok h with h | ⟨e, st2, hin, hcatch⟩
      · obtain ⟨records, st2, hr, h⟩ := M.bind_eq_ok h
        by_cases hz : records.length = 0
        · rw [if_pos hz] at h
          exact absurd h M.throw_ne_ok
        · rw [if_neg hz] at h
          by_cases h1l : records.length = 1
          · rw [dif_pos h1l] at h
            exact Or.inr ⟨⟨_, (Mpure_ok h).1⟩, h2, hnone⟩
          · rw [dif_neg h1l] at h
            obtain ⟨input, st3, hi, h⟩ := M.bind_eq_ok h
            rcases hn : parseIntJS input with _ | n
            · rw [hn] at h
              simp only [] at h
              exact absurd h M.throw_ne_ok
            · rw [hn] at h
              simp only [] at h
              by_cases hrange : 1 ≤ n ∧ n ≤ (records.length : Int)
              · rw [dif_pos hrange] at h
                exact Or.inr ⟨⟨_, (Mpure_ok h).1⟩, h2, hnone⟩
              · rw [dif_neg hrange] at h
                exact absurd h M.throw_ne_ok
      · exact absurd hcatch M.throw_ne_ok
    · rw [if_neg href] at h
      by_cases hpick : field.ftype = "picklist" ∧ field.picklistValues.length > 0
      · rw [if_pos hpick] at h
        obtain ⟨input, st1, hi, h⟩ := M.bind_eq_ok h
        rcases hn : parseIntJS input with _ | n
        · rw [hn] at h
          simp only [] at h
          exact absurd h M.throw_ne_ok
        · rw [hn] at h
          simp only [] at h
          by_cases hrange : 1 ≤ n ∧ n ≤ (field.picklistValues.length : Int)
          · rw [dif_pos hrange] at h
            exact Or.inr ⟨⟨_, (Mpure_ok h).1⟩, h2, hnone⟩
          · rw [dif_neg hrange] at h
            exact absurd h M.throw_ne_ok
      · rw [if_neg hpick] at h
        obtain ⟨fieldValue, st1, hv, h⟩ := M.bind_eq_ok h
        exact Or.inr ⟨⟨_, (Mpure_ok h).1⟩, h2, hnone⟩

theorem contactOrSupplied_of_set {r : Rec} {key : String} {v : FieldVal}
    (hk1 : key ≠ "ContactId") (hk2 : key ≠ "SuppliedEmail") (hk3 : key ≠ "SuppliedName")
    (hP : contactOrSupplied r) : contactOrSupplied (setField r key v) := by
  rcases hP with hT | ⟨⟨e, he, hee⟩, ⟨n, hn, hnn⟩⟩
  · left
    rw [truthyField_setField_ne _ _ _ _ (Ne.symm hk1)]
    exact hT
  · right
    refine ⟨⟨e, ?_, hee⟩, ⟨n, ?_, hnn⟩⟩
    · rw [getField_setField_ne _ _ _ _ (Ne.symm hk2)]
      exact he
    · rw [getField_setField_ne _ _ _ _ (Ne.symm hk3)]
      exact hn

theorem contactOrSupplied_of_delete {r : Rec} {key : String}
    (hk1 : key ≠ "ContactId") (hk2 : key ≠ "SuppliedEmail") (hk3 : key ≠ "SuppliedName")
    (hP : contactOrSupplied r) : contactOrSupplied (deleteField r key) := by
  rcases hP with hT | ⟨⟨e, he, hee⟩, ⟨n, hn, hnn⟩⟩
  · left
    unfold truthyField at hT ⊢
    rw [getField_deleteField_ne _ _ _ (Ne.symm hk1)]
    exact hT
  · right
    refine ⟨⟨e, ?_, hee⟩, ⟨n, ?_, hnn⟩⟩
    · rw [getField_deleteField_ne _ _ _ (Ne.symm hk2)]
      exact he
    · rw [getField_deleteField_ne _ _ _ (Ne.symm hk3)]
      exact hn

theorem contactOrSupplied_acquireSubject {caseRecord rec' : Rec} {st st' : St}
    (h : CaseCreationTs.acquireSubject caseRecord st = (Except.ok rec', st'))
    (hP : contactOrSupplied caseRecord) : contactOrSupplied rec' := by
  rcases acquireSubject_shape h with rfl | ⟨v, rfl⟩
  · exact hP
  · exact contactOrSupplied_of_set (by decide) (by decide) (by decide) hP

theorem contactOrSupplied_acquireDescription {caseRecord rec' : Rec} {st st' : St}
    (h : CaseCreationTs.acquireDescription caseRecord st = (Except.ok rec', st'))
    (hP : contactOrSupplied caseRecord) : contactOrSupplied rec' := by
  rcases acquireDescription_shape h with rfl | ⟨v, rfl | rfl⟩
  · exact hP
  · exact contactOrSupplied_of_set (by decide) (by decide) (by decide) hP
  · exact contactOrSupplied_of_delete (by decide) (by decide) (by decide)
      (contactOrSupplied_of_set (by decide) (by decide) (by decide) hP)

theorem contactOrSupplied_acquirePicklist {caseDescribe : List SField}
    {fieldName promptLabel : String} {caseRecord rec' : Rec} {st st' : St}
    (h : CaseCreationTs.acquirePicklist caseDescribe fieldName promptLabel caseRecord st
      = (Except.ok rec', st'))
    (hk1 : fieldName ≠ "ContactId") (hk2 : fieldName ≠ "SuppliedEmail")
    (hk3 : fieldName ≠ "SuppliedName")
    (hP : contactOrSupplied caseRecord) : contactOrSupplied rec' := by
  rcases acquirePicklist_shape h with rfl | ⟨v, rfl⟩
  · exact hP
  · exact contactOrSupplied_of_set hk1 hk2 hk3 hP

theorem contactOrSupplied_processRequiredField {conn : Conn} {field : SField}
    {caseRecord rec' : Rec} {st st' : St}
    (h : CaseCreationTs.processRequiredField conn field caseRecord st = (Except.ok rec', st'))
    (hP : contactOrSupplied caseRecord) : contactOrSupplied rec' := by
  rcases processRequiredField_shape h with rfl | ⟨⟨v, rfl⟩, hne, hnone⟩
  · exact hP
  · rcases hP with hT | ⟨⟨e, he, hee⟩, ⟨n, hn, hnn⟩⟩
    · left
      rw [truthyField_setField_ne _ _ _ _ (Ne.symm hne)]
      exact hT
    · have hne2 : field.name ≠ "SuppliedEmail" := by
        intro hc
        rw [hc] at hnone
        rw [hnone] at he
        cases he
      have hne3 : field.name ≠ "SuppliedName" := by
        intro hc
        rw [hc] at hnone
        rw [hnone] at hn
        cases hn
      right
      refine ⟨⟨e, ?_, hee⟩, ⟨n, ?_, hnn⟩⟩
      · rw [getField_setField_ne _ _ _ _ (Ne.symm hne2)]
        exact he
      · rw [getField_setField_ne _ _ _ _ (Ne.symm hne3)]
        exact hn

theorem contactOrSupplied_processRequiredFields {conn : Conn} {fields : List SField}
    {caseRecord rec' : Rec} {st st' : St}
    (h : CaseCreationTs.processRequiredFields conn fields caseRecord st = (Except.ok rec', st'))
    (hP : contactOrSupplied caseRecord) : contactOrSupplied rec' := by
  induction fields generalizing caseRecord st with
  | nil =>
    unfold CaseCreationTs.processRequiredFields at h
    rw [(Mpure_ok h).1]
    exact hP
  | cons field rest ih =>
    unfold CaseCreationTs.processRequiredFields at h
    simp only [bind_is_Mbind] at h
    obtain ⟨mid, st1, hmid, h⟩ := M.bind_eq_ok h
    exact ih h (contactOrSupplied_processRequiredField hmid hP)

theorem promptUser_eq_ok {message v : String} {st st' : St}
    (h : promptUser message st = (Except.ok v, st')) :
    ∃ line rest, st.script = line :: rest ∧ v = jsTrim line ∧ st' = ⟨rest, st.trace⟩ := by
  unfold promptUser at h
  rcases st with ⟨script, trace⟩
  cases script with
  | nil => simp at h
  | cons line rest =>
    simp only [Prod.mk.injEq, Except.ok.injEq] at h
    obtain ⟨hv, hst⟩ := h
    exact ⟨line, rest, rfl, hv.symm, hst.symm⟩

theorem confirmCase_ok {caseRecord rec' : Rec} {st st' : St}
    (h : CaseCreationTs.confirmCase caseRecord st = (Except.ok rec', st')) :
    rec' = caseRecord ∧
      ∃ ans rest, st.script = ans :: rest ∧ jsToLower (jsTrim ans) = "y"
        ∧ st' = ⟨rest, st.trace⟩ := by
  unfold CaseCreationTs.confirmCase at h
  simp only [bind_is_Mbind, pure_is_Mpure] at h
  obtain ⟨conf, st1, hcp, h⟩ := M.bind_eq_ok h
  obtain ⟨ans, rest, hscript, hv, hst1⟩ := promptUser_eq_ok hcp
  by_cases hy : jsToLower conf = "y"
  · rw [if_neg (by simp [hy])] at h
    obtain ⟨hb, hst⟩ := Mpure_ok h
    refine ⟨hb, ans, rest, hscript, ?_, by rw [hst, hst1]⟩
    rw [← hv]
    exact hy
  · rw [if_pos (by simp [hy])] at h
    exact absurd h M.throw_ne_ok

theorem confirmCase_declined (caseRecord : Rec) (ans : String) (rest : List String)
    (trace : List RemoteCall) (hny : jsToLower (jsTrim ans) ≠ "y") :
    CaseCreationTs.confirmCase caseRecord ⟨ans :: rest, trace⟩
      = (Except.error "Case creation canceled by user.", ⟨rest, trace⟩) := by
  have hp : promptUser "\nCreate this case? (Y/N):" ⟨ans :: rest, trace⟩
      = (Except.ok (jsTrim ans), ⟨rest, trace⟩) := rfl
  unfold CaseCreationTs.confirmCase
  simp only [bind_is_Mbind, pure_is_Mpure]
  rw [M.bind_of_ok _ hp]
  rw [if_pos (by simp [hny])]
  rfl

theorem flowPhases_contactOrSupplied {conn : Conn} {st st1 : St} {rec : Rec}
    (h : CaseCreationTs.flowPhases conn st = (Except.ok rec, st1)) :
    contactOrSupplied rec := by
  unfold CaseCreationTs.flowPhases at h
  simp only [bind_is_Mbind, pure_is_Mpure] at h
  obtain ⟨cd, s1, h1, h⟩ := M.bind_eq_ok h
  obtain ⟨acc, s2, h2, h⟩ := M.bind_eq_ok h
  obtain ⟨r1, s3, h3, h⟩ := M.bind_eq_ok h
  obtain ⟨r2, s4, h4, h⟩ := M.bind_eq_ok h
  obtain ⟨r3, s5, h5, h⟩ := M.bind_eq_ok h
  obtain ⟨r4, s6, h6, h⟩ := M.bind_eq_ok h
  obtain ⟨r5, s7, h7, h⟩ := M.bind_eq_ok h
  obtain ⟨r6, s8, h8, h⟩ := M.bind_eq_ok h
  obtain ⟨r7, s9, h9, h⟩ := M.bind_eq_ok h
  have hP2 : contactOrSupplied r2 := by
    rcases acquireWebContactInfo_ok h4 with ⟨ht, rfl⟩ | ⟨e, n, hee, hnn, rfl⟩
    · exact Or.inl ht
    · right
      refine ⟨⟨e, ?_, hee⟩, ⟨n, getField_setField_same _ _ _, hnn⟩⟩
      rw [getField_setField_ne _ _ _ _ (by decide)]
      exact getField_setField_same _ _ _
  exact contactOrSupplied_processRequiredFields h
    (contactOrSupplied_acquirePicklist h9 (by decide) (by decide) (by decide)
    (contactOrSupplied_acquirePicklist h8 (by decide) (by decide) (by decide)
    (contactOrSupplied_acquirePicklist h7 (by decide) (by decide) (by decide)
    (contactOrSupplied_acquireDescription h6
    (contactOrSupplied_acquireSubject h5 hP2)))))

/-- C7: in the guided case-creation flow, whenever the record reaching the
final confirmation has no (truthy) ContactId — which covers a skipped or
invalid contact selection over a non-empty contact list — the payload carries
non-empty SuppliedEmail and SuppliedName values, obtained by re-prompting
until non-blank. -/
theorem c7_web_contact_fields_required :
    ∀ (conn : Conn) (st : St) (rec : Rec) (st1 : St),
      (CaseCreationTs.flowPhases conn st = (Except.ok rec, st1) →
        truthyField rec "ContactId" = false → suppliedNonEmpty rec) ∧
      (CaseCreationTs.advancedGuidedCaseCreation conn st = (Except.ok rec, st1) →
        truthyField rec "ContactId" = false → suppliedNonEmpty rec) := by
  intro conn st rec st1
  constructor
  · intro h hct
    rcases flowPhases_contactOrSupplied h with hT | hS
    · rw [hct] at hT
      cases hT
    · exact hS
  · intro h hct
    unfold CaseCreationTs.advancedGuidedCaseCreation at h
    simp only [bind_is_Mbind] at h
    obtain ⟨rec0, st0, hflow, hconf⟩ := M.bind_eq_ok h
    obtain ⟨hrec, -⟩ := confirmCase_ok hconf
    subst hrec
    rcases flowPhases_contactOrSupplied hflow with hT | hS
    · rw [hct] at hT
      cases hT
    · exact hS

theorem createCalls_nil : createCalls [] = [] := rfl

theorem createCalls_single_create (objectName : String) (records : List Rec) :
    createCalls [RemoteCall.create objectName records] = [RemoteCall.create objectName records] := rfl

/-- C6: in the guided case-creation flow, a confirmation answer other than
case-insensitive "y" aborts with the cancellation error before the create
operation is called; the Case create remote call is issued only after the
flow succeeded, which requires the confirmation answer to lower-case to "y". -/
theorem c6_confirmation_gates_create :
    ∀ (conn : Conn) (args : DMLArgs) (script : List String) (out : Except String HandlerResult)
      (st' : St),
      args.operation = DMLOp.insert → args.objectName = "Case" →
      CaseCreationTs.handleDMLRecords conn args ⟨script, []⟩ = (out, st') →
      (∀ e st1,
        CaseCreationTs.advancedGuidedCaseCreation conn ⟨script, []⟩ = (Except.error e, st1) →
        out = Except.error e ∧ createCalls st'.trace = []) ∧
      (∀ rec st1 ans rest,
        CaseCreationTs.flowPhases conn ⟨script, []⟩ = (Except.ok rec, st1) →
        st1.script = ans :: rest → jsToLower (jsTrim ans) ≠ "y" →
        out = Except.error "Case creation canceled by user." ∧ createCalls st'.trace = []) ∧
      (createCalls st'.trace ≠ [] →
        ∃ rec st1 ans rest,
          CaseCreationTs.flowPhases conn ⟨script, []⟩ = (Except.ok rec, st1) ∧
          st1.script = ans :: rest ∧ jsToLower (jsTrim ans) = "y" ∧
          createCalls st'.trace = [RemoteCall.create "Case" [rec]]) := by
  intro conn args script out st' hop hobj h
  unfold CaseCreationTs.handleDMLRecords at h
  simp only [bind_is_Mbind, pure_is_Mpure] at h
  rw [hop] at h
  simp only [] at h
  rw [if_pos hobj] at h
  rw [hobj] at h
  have cj1 : ∀ e st1,
      CaseCreationTs.advancedGuidedCaseCreation conn ⟨script, []⟩ = (Except.error e, st1) →
      out = Except.error e ∧ createCalls st'.trace = [] := by
    intro e st1 hAe
    rw [M.bind_of_error _ hAe] at h
    simp only [Prod.mk.injEq] at h
    obtain ⟨h1, h2⟩ := h
    have h3 := addsNoCreates_advancedGuidedCaseCreation conn ⟨script, []⟩ _ _ hAe
    refine ⟨h1.symm, ?_⟩
    rw [← h2, h3]
    rfl
  refine ⟨cj1, ?_, ?_⟩
  · intro rec st1 ans rest hflow hscript hny
    rcases st1 with ⟨s1s, s1t⟩
    simp only at hscript
    subst hscript
    have hA : CaseCreationTs.advancedGuidedCaseCreation conn ⟨script, []⟩
        = (Except.error "Case creation canceled by user.", ⟨rest, s1t⟩) := by
      unfold CaseCreationTs.advancedGuidedCaseCreation
      simp only [bind_is_Mbind]
      rw [M.bind_of_ok _ hflow]
      exact confirmCase_declined rec ans rest s1t hny
    exact cj1 _ _ hA
  · intro hne
    rcases hA : CaseCreationTs.advancedGuidedCaseCreation conn ⟨script, []⟩ with ⟨ra, sta⟩
    cases ra with
    | error e => exact absurd (cj1 e sta hA).2 hne
    | ok rec =>
      have hsta := addsNoCreates_advancedGuidedCaseCreation conn ⟨script, []⟩ _ _ hA
      rw [M.bind_of_ok _ hA] at h
      have hA' : M.bind (CaseCreationTs.flowPhases conn) CaseCreationTs.confirmCase ⟨script, []⟩
          = (Except.ok rec, sta) := by
        have hcopy := hA
        unfold CaseCreationTs.advancedGuidedCaseCreation at hcopy
        simp only [bind_is_Mbind] at hcopy
        exact hcopy
      obtain ⟨rec0, st0, hflow, hconf⟩ := M.bind_eq_ok hA'
      obtain ⟨hrec0, ans, rest, hscr, hy, hsta'⟩ := confirmCase_ok hconf
      subst hrec0
      have hstc : createCalls ({ sta with
          trace := sta.trace ++ [RemoteCall.create "Case" [rec]] } : St).trace
          = [RemoteCall.create "Case" [rec]] := by
        simp only [createCalls_append, createCalls_single_create]
        rw [hsta]
        rfl
      rcases hc : conn.create "Case" [rec] with e | results
      · have hcc : callCreate conn "Case" [rec] sta = (Except.error e,
            { sta with trace := sta.trace ++ [RemoteCall.create "Case" [rec]] }) := by
          unfold callCreate callRemote
          rw [hc]
        rw [M.bind_of_error _ hcc] at h
        simp only [Prod.mk.injEq] at h
        obtain ⟨h1, h2⟩ := h
        refine ⟨rec, st0, ans, rest, hflow, hscr, hy, ?_⟩
        rw [← h2]
        exact hstc
      · have hcc : callCreate conn "Case" [rec] sta = (Except.ok results,
            { sta with trace := sta.trace ++ [RemoteCall.create "Case" [rec]] }) := by
          unfold callCreate callRemote
          rw [hc]
        rw [M.bind_of_ok _ hcc] at h
        unfold M.pure at h
        simp only [Prod.mk.injEq] at h
        obtain ⟨h1, h2⟩ := h
        refine ⟨rec, st0, ans, rest, hflow, hscr, hy, ?_⟩
        rw [← h2]
        exact hstc

theorem c6_confirmation_gates_create_witness :
    Except.error (α := HandlerResult) "Case creation canceled by user."
        = Except.error "Case creation canceled by user." ∧
      createCalls ((⟨[], [RemoteCall.describe "Case", RemoteCall.findLike "Account" "acme",
        RemoteCall.findContacts "001A"]⟩ : St)).trace = [] :=
  (c6_confirmation_gates_create conn0
      { operation := DMLOp.insert, objectName := "Case", records := [[]] }
      ["acme", "a@b.c", "Bob", "Subj", "", "n"]
      (Except.error "Case creation canceled by user.")
      ⟨[], [RemoteCall.describe "Case", RemoteCall.findLike "Account" "acme",
        RemoteCall.findContacts "001A"]⟩
      rfl rfl (by decide)).2.1
    [("AccountId", FieldVal.s "001A"), ("SuppliedEmail", FieldVal.s "a@b.c"),
     ("SuppliedName", FieldVal.s "Bob"), ("Subject", FieldVal.s "Subj")]
    ⟨["n"], [RemoteCall.describe "Case", RemoteCall.findLike "Account" "acme",
      RemoteCall.findContacts "001A"]⟩
    "n" [] (by decide) (by decide) (by decide)

theorem c7_web_contact_fields_required_witness :
    suppliedNonEmpty [("AccountId", FieldVal.s "001A"), ("SuppliedEmail", FieldVal.s "a@b.c"),
      ("SuppliedName", FieldVal.s "Bob"), ("Subject", FieldVal.s "Subj")] :=
  (c7_web_contact_fields_required conn0 ⟨["acme", "a@b.c", "Bob", "Subj", "", "y"], []⟩
      [("AccountId", FieldVal.s "001A"), ("SuppliedEmail", FieldVal.s "a@b.c"),
       ("SuppliedName", FieldVal.s "Bob"), ("Subject", FieldVal.s "Subj")]
      ⟨["y"], [RemoteCall.describe "Case", RemoteCall.findLike "Account" "acme",
        RemoteCall.findContacts "001A"]⟩).1
    (by decide) (by decide)

/-- C2 counterexample: the contact-selection step of the guided flow presents
one choice, receives the out-of-range selection "5", and the flow does not
abort with an invalid-selection error — it completes with no contact set. -/
theorem c2_counterexample_contact_selection :
    (CaseCreationTs.advancedGuidedCaseCreation conn1)
        ⟨["acme", "5", "a@b.c", "Bob", "Subj", "", "y"], []⟩
      = (Except.ok [("AccountId", FieldVal.s "001A"), ("SuppliedEmail", FieldVal.s "a@b.c"),
          ("SuppliedName", FieldVal.s "Bob"), ("Subject", FieldVal.s "Subj")],
         ⟨[], [RemoteCall.describe "Case", RemoteCall.findLike "Account" "acme",
               RemoteCall.findContacts "001A"]⟩) ∧
    conn1.findContacts "001A" = Except.ok [conBob] ∧
    parseIntJS "5" = some 5 ∧
    invalidSelection "5" [conBob].length = true ∧
    getField [("AccountId", FieldVal.s "001A"), ("SuppliedEmail", FieldVal.s "a@b.c"),
      ("SuppliedName", FieldVal.s "Bob"), ("Subject", FieldVal.s "Subj")] "ContactId" = none :=
  ⟨by decide, by decide, by decide, by decide, by decide⟩

theorem invalidSelection_spec {input : String} {n : Nat} (h : invalidSelection input n = true) :
    parseIntJS input = none ∨
      ∃ k, parseIntJS input = some k ∧ ¬(1 ≤ k ∧ k ≤ (n : Int)) := by
  unfold invalidSelection at h
  rcases hp : parseIntJS input with _ | k
  · exact Or.inl rfl
  · rw [hp] at h
    simp only [Bool.or_eq_true, decide_eq_true_eq] at h
    right
    refine ⟨k, rfl, ?_⟩
    omega

theorem acquireAccount_invalid (conn : Conn) (searchInp selInp : String) (rest : List String)
    (trace : List RemoteCall) (accounts : List SObj)
    (hfind : conn.findLike "Account" (jsTrim searchInp) = Except.ok accounts)
    (hlen : 2 ≤ accounts.length)
    (hinv : invalidSelection (jsTrim selInp) accounts.length = true) :
    CaseCreationTs.acquireAccount conn ⟨searchInp :: selInp :: rest, trace⟩
      = (Except.error "Invalid account selection. Please enter a valid number from the list.",
         ⟨rest, trace ++ [RemoteCall.findLike "Account" (jsTrim searchInp)]⟩) := by
  have hp1 : promptUser "Enter a search string to filter accounts:"
      ⟨searchInp :: selInp :: rest, trace⟩
      = (Except.ok (jsTrim searchInp), ⟨selInp :: rest, trace⟩) := rfl
  have hc : callFindLike conn "Account" (jsTrim searchInp) ⟨selInp :: rest, trace⟩
      = (Except.ok accounts,
         ⟨selInp :: rest, trace ++ [RemoteCall.findLike "Account" (jsTrim searchInp)]⟩) := by
    unfold callFindLike callRemote
    rw [hfind]
  have hp2 : promptUser ("Select an account:\n" ++ numberedNames accounts)
      ⟨selInp :: rest, trace ++ [RemoteCall.findLike "Account" (jsTrim searchInp)]⟩
      = (Except.ok (jsTrim selInp),
         ⟨rest, trace ++ [RemoteCall.findLike "Account" (jsTrim searchInp)]⟩) := rfl
  unfold CaseCreationTs.acquireAccount
  simp only [bind_is_Mbind, pure_is_Mpure]
  rw [M.bind_of_ok _ hp1]
  rw [M.bind_of_ok _ hc]
  rw [if_neg (by omega)]
  rw [dif_neg (by omega)]
  rw [M.bind_of_ok _ hp2]
  rcases invalidSelection_spec hinv with hnone | ⟨k, hsome, hrange⟩
  · rw [hnone]
    rfl
  · rw [hsome]
    simp only []
    rw [dif_neg hrange]
    rfl

theorem acquireAccount_valid (conn : Conn) (searchInp selInp : String) (rest : List String)
    (trace : List RemoteCall) (accounts : List SObj) (k : Int) (a : SObj)
    (hfind : conn.findLike "Account" (jsTrim searchInp) = Except.ok accounts)
    (hlen : 2 ≤ accounts.length)
    (hsome : parseIntJS (jsTrim selInp) = some k)
    (hlo : 1 ≤ k) (hhi : k ≤ (accounts.length : Int))
    (hget : accounts.get? (k - 1).toNat = some a) :
    CaseCreationTs.acquireAccount conn ⟨searchInp :: selInp :: rest, trace⟩
      = (Except.ok a, ⟨rest, trace ++ [RemoteCall.findLike "Account" (jsTrim searchInp)]⟩) := by
  have hp1 : promptUser "Enter a search string to filter accounts:"
      ⟨searchInp :: selInp :: rest, trace⟩
      = (Except.ok (jsTrim searchInp), ⟨selInp :: rest, trace⟩) := rfl
  have hc : callFindLike conn "Account" (jsTrim searchInp) ⟨selInp :: rest, trace⟩
      = (Except.ok accounts,
         ⟨selInp :: rest, trace ++ [RemoteCall.findLike "Account" (jsTrim searchInp)]⟩) := by
    unfold callFindLike callRemote
    rw [hfind]
  have hp2 : promptUser ("Select an account:\n" ++ numberedNames accounts)
      ⟨selInp :: rest, trace ++ [RemoteCall.findLike "Account" (jsTrim searchInp)]⟩
      = (Except.ok (jsTrim selInp),
         ⟨rest, trace ++ [RemoteCall.findLike "Account" (jsTrim searchInp)]⟩) := rfl
  unfold CaseCreationTs.acquireAccount
  simp only [bind_is_Mbind, pure_is_Mpure]
  rw [M.bind_of_ok _ hp1]
  rw [M.bind_of_ok _ hc]
  rw [if_neg (by omega)]
  rw [dif_neg (by omega)]
  rw [M.bind_of_ok _ hp2]
  rw [hsome]
  simp only []
  rw [dif_pos ⟨hlo, hhi⟩]
  unfold M.pure
  have : accounts.get ⟨(k - 1).toNat, by omega⟩ = a := by
    have := List.get?_eq_get (l := accounts) (n := (k - 1).toNat) (by omega)
    rw [hget] at this
    exact (Option.some.injEq _ _ ▸ this).symm
  rw [this]

theorem acquirePicklist_skip_invalid (caseDescribe : List SField)
    (fieldName promptLabel : String) (caseRecord : Rec) (inp : String) (rest : List String)
    (trace : List RemoteCall) (field : SField)
    (ht : truthyField caseRecord fieldName = false)
    (hfind : caseDescribe.find? (fun f => f.name = fieldName) = some field)
    (hlen : 0 < field.picklistValues.length)
    (hinv : invalidSelection (jsTrim inp) field.picklistValues.length = true) :
    CaseCreationTs.acquirePicklist caseDescribe fieldName promptLabel caseRecord
        ⟨inp :: rest, trace⟩
      = (Except.ok caseRecord, ⟨rest, trace⟩) := by
  unfold CaseCreationTs.acquirePicklist
  simp only [bind_is_Mbind, pure_is_Mpure]
  rw [if_pos (by simp [ht])]
  rw [hfind]
  simp only []
  rw [dif_pos hlen]
  have hp : promptUser (promptLabel ++ picklistChoices field.picklistValues) ⟨inp :: rest, trace⟩
      = (Except.ok (jsTrim inp), ⟨rest, trace⟩) := rfl
  rw [M.bind_of_ok _ hp]
  rcases invalidSelection_spec hinv with hnone | ⟨k, hsome, hrange⟩
  · rw [hnone]
    rfl
  · rw [hsome]
    simp only []
    rw [dif_neg hrange]
    rfl

theorem acquirePicklist_valid (caseDescribe : List SField)
    (fieldName promptLabel : String) (caseRecord : Rec) (inp : String) (rest : List String)
    (trace : List RemoteCall) (field : SField) (k : Int) (item : PicklistValue)
    (ht : truthyField caseRecord fieldName = false)
    (hfind : caseDescribe.find? (fun f => f.name = fieldName) = some field)
    (hsome : parseIntJS (jsTrim inp) = some k)
    (hlo : 1 ≤ k) (hhi : k ≤ (field.picklistValues.length : Int))
    (hget : field.picklistValues.get? (k - 1).toNat = some item) :
    CaseCreationTs.acquirePicklist caseDescribe fieldName promptLabel caseRecord
        ⟨inp :: rest, trace⟩
      = (Except.ok (setField caseRecord fieldName (FieldVal.s item.value)), ⟨rest, trace⟩) := by
  have hlen : 0 < field.picklistValues.length := by omega
  unfold CaseCreationTs.acquirePicklist
  simp only [bind_is_Mbind, pure_is_Mpure]
  rw [if_pos (by simp [ht])]
  rw [hfind]
  simp only []
  rw [dif_pos hlen]
  have hp : promptUser (promptLabel ++ picklistChoices field.picklistValues) ⟨inp :: rest, trace⟩
      = (Except.ok (jsTrim inp), ⟨rest, trace⟩) := rfl
  rw [M.bind_of_ok _ hp]
  rw [hsome]
  simp only []
  rw [dif_pos ⟨hlo, hhi⟩]
  unfold M.pure
  have hidx : field.picklistValues.get ⟨(k - 1).toNat, by omega⟩ = item := by
    have := List.get?_eq_get (l := field.picklistValues) (n := (k - 1).toNat) (by omega)
    rw [hget] at this
    exact (Option.some.injEq _ _ ▸ this).symm
  rw [hidx]

theorem acquireContact_skip_invalid (conn : Conn) (accountId : String) (caseRecord : Rec)
    (inp : String) (rest : List String) (trace : List RemoteCall) (contacts : List SObj)
    (hfind : conn.findContacts accountId = Except.ok contacts)
    (hlen : 0 < contacts.length)
    (hblank : jsTrim (jsTrim inp) ≠ "")
    (hinv : invalidSelection (jsTrim inp) contacts.length = true) :
    CaseCreationTs.acquireContact conn accountId caseRecord ⟨inp :: rest, trace⟩
      = (Except.ok caseRecord, ⟨rest, trace ++ [RemoteCall.findContacts accountId]⟩) := by
  unfold CaseCreationTs.acquireContact
  simp only [bind_is_Mbind, pure_is_Mpure]
  have hc : callFindContacts conn accountId ⟨inp :: rest, trace⟩
      = (Except.ok contacts, ⟨inp :: rest, trace ++ [RemoteCall.findContacts accountId]⟩) := by
    unfold callFindContacts callRemote
    rw [hfind]
  rw [M.bind_of_ok _ hc]
  rw [if_pos hlen]
  have hp : promptUser
      ("Select a contact for this case (or press Enter to skip):\n" ++ numberedNames contacts)
      ⟨inp :: rest, trace ++ [RemoteCall.findContacts accountId]⟩
      = (Except.ok (jsTrim inp), ⟨rest, trace ++ [RemoteCall.findContacts accountId]⟩) := rfl
  rw [M.bind_of_ok _ hp]
  rw [if_pos (by simpa using hblank)]
  rcases invalidSelection_spec hinv with hnone | ⟨k, hsome, hrange⟩
  · rw [hnone]
    rfl
  · rw [hsome]
    simp only []
    rw [dif_neg hrange]
    rfl

theorem acquireContact_valid (conn : Conn) (accountId : String) (caseRecord : Rec)
    (inp : String) (rest : List String) (trace : List RemoteCall) (contacts : List SObj)
    (k : Int) (c : SObj)
    (hfind : conn.findContacts accountId = Except.ok contacts)
    (hblank : jsTrim (jsTrim inp) ≠ "")
    (hsome : parseIntJS (jsTrim inp) = some k)
    (hlo : 1 ≤ k) (hhi : k ≤ (contacts.length : Int))
    (hget : contacts.get? (k - 1).toNat = some c) :
    CaseCreationTs.acquireContact conn accountId caseRecord ⟨inp :: rest, trace⟩
      = (Except.ok (setField caseRecord "ContactId" (FieldVal.s c.Id)),
         ⟨rest, trace ++ [RemoteCall.findContacts accountId]⟩) := by
  have hlen : 0 < contacts.length := by omega
  unfold CaseCreationTs.acquireContact
  simp only [bind_is_Mbind, pure_is_Mpure]
  have hc : callFindContacts conn accountId ⟨inp :: rest, trace⟩
      = (Except.ok contacts, ⟨inp :: rest, trace ++ [RemoteCall.findContacts accountId]⟩) := by
    unfold callFindContacts callRemote
    rw [hfind]
  rw [M.bind_of_ok _ hc]
  rw [if_pos hlen]
  have hp : promptUser
      ("Select a contact for this case (or press Enter to skip):\n" ++ numberedNames contacts)
      ⟨inp :: rest, trace ++ [RemoteCall.findContacts accountId]⟩
      = (Except.ok (jsTrim inp), ⟨rest, trace ++ [RemoteCall.findContacts accountId]⟩) := rfl
  rw [M.bind_of_ok _ hp]
  rw [if_pos (by simpa using hblank)]
  rw [hsome]
  simp only []
  rw [dif_pos ⟨hlo, hhi⟩]
  unfold M.pure
  have hidx : contacts.get ⟨(k - 1).toNat, by omega⟩ = c := by
    have := List.get?_eq_get (l := contacts) (n := (k - 1).toNat) (by omega)
    rw [hget] at this
    exact (Option.some.injEq _ _ ▸ this).symm
  rw [hidx]

theorem processRequiredField_picklist_invalid (conn : Conn) (field : SField) (caseRecord : Rec)
    (inp : String) (rest : List String) (trace : List RemoteCall)
    (hskip : ¬(field.name = "AccountId" ∨ field.name = "ContactId" ∨ field.name = "Subject"
      ∨ field.name = "Description" ∨ field.name = "Origin" ∨ field.name = "Status"
      ∨ field.name = "Priority" ∨ (getField caseRecord field.name).isSome))
    (hftype : field.ftype = "picklist")
    (hlen : 0 < field.picklistValues.length)
    (hinv : invalidSelection (jsTrim inp) field.picklistValues.length = true) :
    CaseCreationTs.processRequiredField conn field caseRecord ⟨inp :: rest, trace⟩
      = (Except.error
          ("Invalid " ++ field.label ++ " selection. Please enter a valid number from the list."),
         ⟨rest, trace⟩) := by
  unfold CaseCreationTs.processRequiredField
  simp only [bind_is_Mbind, pure_is_Mpure]
  rw [if_neg hskip]
  rw [if_neg (by
    intro hcon
    rw [hftype] at hcon
    exact absurd hcon.1 (by decide))]
  rw [if_pos ⟨hftype, hlen⟩]
  have hp : promptUser ("Select a " ++ field.label ++ ":\n" ++ picklistChoices field.picklistValues)
      ⟨inp :: rest, trace⟩
      = (Except.ok (jsTrim inp), ⟨rest, trace⟩) := rfl
  rw [M.bind_of_ok _ hp]
  rcases invalidSelection_spec hinv with hnone | ⟨k, hsome, hrange⟩
  · rw [hnone]
    rfl
  · rw [hsome]
    simp only []
    rw [dif_neg hrange]
    rfl

theorem processRequiredField_reference_invalid (conn : Conn) (field : SField) (caseRecord : Rec)
    (searchInp selInp : String) (rest : List String) (trace : List RemoteCall)
    (records : List SObj)
    (hskip : ¬(field.name = "AccountId" ∨ field.name = "ContactId" ∨ field.name = "Subject"
      ∨ field.name = "Description" ∨ field.name = "Origin" ∨ field.name = "Status"
      ∨ field.name = "Priority" ∨ (getField caseRecord field.name).isSome))
    (hftype : field.ftype = "reference")
    (hreflen : 0 < field.referenceTo.length)
    (hfind : conn.findLike (field.referenceTo.getD 0 "") (jsTrim searchInp) = Except.ok records)
    (hlen : 2 ≤ records.length)
    (hinv : invalidSelection (jsTrim selInp) records.length = true) :
    CaseCreationTs.processRequiredField conn field caseRecord ⟨searchInp :: selInp :: rest, trace⟩
      = (Except.error ("Unable to find " ++ field.label ++ " records. Please try again."),
         ⟨rest, trace ++ [RemoteCall.findLike (field.referenceTo.getD 0 "") (jsTrim searchInp)]⟩) := by
  unfold CaseCreationTs.processRequiredField
  simp only [bind_is_Mbind, pure_is_Mpure]
  rw [if_neg hskip]
  rw [if_pos ⟨hftype, hreflen⟩]
  have hp1 : promptUser ("Enter a search string to find " ++ field.label ++ ":")
      ⟨searchInp :: selInp :: rest, trace⟩
      = (Except.ok (jsTrim searchInp), ⟨selInp :: rest, trace⟩) := rfl
  rw [M.bind_of_ok _ hp1]
  have hc : callFindLike conn (field.referenceTo.getD 0 "") (jsTrim searchInp)
      ⟨selInp :: rest, trace⟩
      = (Except.ok records,
         ⟨selInp :: rest, trace ++ [RemoteCall.findLike (field.referenceTo.getD 0 "") (jsTrim searchInp)]⟩) := by
    unfold callFindLike callRemote
    rw [hfind]
  have hp2 : promptUser ("Select a " ++ field.label ++ ":\n" ++ numberedNames records)
      ⟨selInp :: rest, trace ++ [RemoteCall.findLike (field.referenceTo.getD 0 "") (jsTrim searchInp)]⟩
      = (Except.ok (jsTrim selInp),
         ⟨rest, trace ++ [RemoteCall.findLike (field.referenceTo.getD 0 "") (jsTrim searchInp)]⟩) := rfl
  have hinner : M.bind (callFindLike conn (field.referenceTo.getD 0 "") (jsTrim searchInp))
      (fun records' =>
        if records'.length = 0 then
          M.throw ("No " ++ (field.referenceTo.getD 0 "") ++ " records found matching your search criteria.")
        else if h1 : records'.length = 1 then
          M.pure (setField caseRecord field.name (FieldVal.s (records'.get ⟨0, by omega⟩).Id))
        else
          M.bind (promptUser ("Select a " ++ field.label ++ ":\n" ++ numberedNames records'))
            (fun input =>
              match parseIntJS input with
              | none =>
                M.throw ("Invalid " ++ (field.referenceTo.getD 0 "")
                  ++ " selection. Please enter a valid number from the list.")
              | some n =>
                if h2 : 1 ≤ n ∧ n ≤ (records'.length : Int) then
                  M.pure (setField caseRecord field.name
                    (FieldVal.s (records'.get ⟨(n - 1).toNat, by omega⟩).Id))
                else
                  M.throw ("Invalid " ++ (field.referenceTo.getD 0 "")
                    ++ " selection. Please enter a valid number from the list.")))
      ⟨selInp :: rest, trace⟩
      = (Except.error ("Invalid " ++ (field.referenceTo.getD 0 "")
          ++ " selection. Please enter a valid number from the list."),
         ⟨rest, trace ++ [RemoteCall.findLike (field.referenceTo.getD 0 "") (jsTrim searchInp)]⟩) := by
    rw [M.bind_of_ok _ hc]
    rw [if_neg (by omega)]
    rw [dif_neg (by omega)]
    rw [M.bind_of_ok _ hp2]
    rcases invalidSelection_spec hinv with hnone | ⟨k, hsome, hrange⟩
    · rw [hnone]
      rfl
    · rw [hsome]
      simp only []
      rw [dif_neg hrange]
      rfl
  unfold M.tryCatch
  rw [hinner]
  rfl

theorem processRequiredField_picklist_valid (conn : Conn) (field : SField) (caseRecord : Rec)
    (inp : String) (rest : List String) (trace : List RemoteCall) (k : Int)
    (item : PicklistValue)
    (hskip : ¬(field.name = "AccountId" ∨ field.name = "ContactId" ∨ field.name = "Subject"
      ∨ field.name = "Description" ∨ field.name = "Origin" ∨ field.name = "Status"
      ∨ field.name = "Priority" ∨ (getField caseRecord field.name).isSome))
    (hftype : field.ftype = "picklist")
    (hsome : parseIntJS (jsTrim inp) = some k)
    (hlo : 1 ≤ k) (hhi : k ≤ (field.picklistValues.length : Int))
    (hget : field.picklistValues.get? (k - 1).toNat = some item) :
    CaseCreationTs.processRequiredField conn field caseRecord ⟨inp :: rest, trace⟩
      = (Except.ok (setField caseRecord field.name (FieldVal.s item.value)),
         ⟨rest, trace⟩) := by
  have hlen : 0 < field.picklistValues.length := by omega
  unfold CaseCreationTs.processRequiredField
  simp only [bind_is_Mbind, pure_is_Mpure]
  rw [if_neg hskip]
  rw [if_neg (by
    intro hcon
    rw [hftype] at hcon
    exact absurd hcon.1 (by decide))]
  rw [if_pos ⟨hftype, hlen⟩]
  have hp : promptUser ("Select a " ++ field.label ++ ":\n" ++ picklistChoices field.picklistValues)
      ⟨inp :: rest, trace⟩
      = (Except.ok (jsTrim inp), ⟨rest, trace⟩) := rfl
  rw [M.bind_of_ok _ hp]
  rw [hsome]
  simp only []
  rw [dif_pos ⟨hlo, hhi⟩]
  unfold M.pure
  have hidx : field.picklistValues.get ⟨(k - 1).toNat, by omega⟩ = item := by
    have := List.get?_eq_get (l := field.picklistValues) (n := (k - 1).toNat) (by omega)
    rw [hget] at this
    exact (Option.some.injEq _ _ ▸ this).symm
  rw [hidx]

theorem processRequiredField_reference_valid (conn : Conn) (field : SField) (caseRecord : Rec)
    (searchInp selInp : String) (rest : List String) (trace : List RemoteCall)
    (records : List SObj) (k : Int) (r : SObj)
    (hskip : ¬(field.name = "AccountId" ∨ field.name = "ContactId" ∨ field.name = "Subject"
      ∨ field.name = "Description" ∨ field.name = "Origin" ∨ field.name = "Status"
      ∨ field.name = "Priority" ∨ (getField caseRecord field.name).isSome))
    (hftype : field.ftype = "reference")
    (hreflen : 0 < field.referenceTo.length)
    (hfind : conn.findLike (field.referenceTo.getD 0 "") (jsTrim searchInp) = Except.ok records)
    (hlen : 2 ≤ records.length)
    (hsome : parseIntJS (jsTrim selInp) = some k)
    (hlo : 1 ≤ k) (hhi : k ≤ (records.length : Int))
    (hget : records.get? (k - 1).toNat = some r) :
    CaseCreationTs.processRequiredField conn field caseRecord
        ⟨searchInp :: selInp :: rest, trace⟩
      = (Except.ok (setField caseRecord field.name (FieldVal.s r.Id)),
         ⟨rest, trace ++ [RemoteCall.findLike (field.referenceTo.getD 0 "") (jsTrim searchInp)]⟩) := by
  unfold CaseCreationTs.processRequiredField
  simp only [bind_is_Mbind, pure_is_Mpure]
  rw [if_neg hskip]
  rw [if_pos ⟨hftype, hreflen⟩]
  have hp1 : promptUser ("Enter a search string to find " ++ field.label ++ ":")
      ⟨searchInp :: selInp :: rest, trace⟩
      = (Except.ok (jsTrim searchInp), ⟨selInp :: rest, trace⟩) := rfl
  rw [M.bind_of_ok _ hp1]
  have hc : callFindLike conn (field.referenceTo.getD 0 "") (jsTrim searchInp)
      ⟨selInp :: rest, trace⟩
      = (Except.ok records,
         ⟨selInp :: rest, trace ++ [RemoteCall.findLike (field.referenceTo.getD 0 "") (jsTrim searchInp)]⟩) := by
    unfold callFindLike callRemote
    rw [hfind]
  have hp2 : promptUser ("Select a " ++ field.label ++ ":\n" ++ numberedNames records)
      ⟨selInp :: rest, trace ++ [RemoteCall.findLike (field.referenceTo.getD 0 "") (jsTrim searchInp)]⟩
      = (Except.ok (jsTrim selInp),
         ⟨rest, trace ++ [RemoteCall.findLike (field.referenceTo.getD 0 "") (jsTrim searchInp)]⟩) := rfl
  have hidx : records.get ⟨(k - 1).toNat, by omega⟩ = r := by
    have := List.get?_eq_get (l := records) (n := (k - 1).toNat) (by omega)
    rw [hget] at this
    exact (Option.some.injEq _ _ ▸ this).symm
  have hinner : M.bind (callFindLike conn (field.referenceTo.getD 0 "") (jsTrim searchInp))
      (fun records' =>
        if records'.length = 0 then
          M.throw ("No " ++ (field.referenceTo.getD 0 "") ++ " records found matching your search criteria.")
        else if h1 : records'.length = 1 then
          M.pure (setField caseRecord field.name (FieldVal.s (records'.get ⟨0, by omega⟩).Id))
        else
          M.bind (promptUser ("Select a " ++ field.label ++ ":\n" ++ numberedNames records'))
            (fun input =>
              match parseIntJS input with
              | none =>
                M.throw ("Invalid " ++ (field.referenceTo.getD 0 "")
                  ++ " selection. Please enter a valid number from the list.")
              | some n =>
                if h2 : 1 ≤ n ∧ n ≤ (records'.length : Int) then
                  M.pure (setField caseRecord field.name
                    (FieldVal.s (records'.get ⟨(n - 1).toNat, by omega⟩).Id))
                else
                  M.throw ("Invalid " ++ (field.referenceTo.getD 0 "")
                    ++ " selection. Please enter a valid number from the list.")))
      ⟨selInp :: rest, trace⟩
      = (Except.ok (setField caseRecord field.name (FieldVal.s r.Id)),
         ⟨rest, trace ++ [RemoteCall.findLike (field.referenceTo.getD 0 "") (jsTrim searchInp)]⟩) := by
    rw [M.bind_of_ok _ hc]
    rw [if_neg (by omega)]
    rw [dif_neg (by omega)]
    rw [M.bind_of_ok _ hp2]
    rw [hsome]
    simp only []
    rw [dif_pos ⟨hlo, hhi⟩]
    unfold M.pure
    rw [hidx]
  unfold M.tryCatch
  rw [hinner]

/-- C2 (amended): the account-selection step (two or more matches) and the
per-required-field reference and picklist sub-flows abort with an error on a
non-numeric or out-of-range 1-based selection (the reference sub-flow's local
catch replaces the invalid-selection message with an "Unable to find" one),
while the contact, Origin, Status and Priority selection steps do not abort —
invalid input there silently leaves the field unset and the flow continues;
a selection within `[1, N]` selects exactly the corresponding item at every
selection step, the per-required-field reference and picklist sub-flows
included. -/
theorem c2_amended_selection_behavior :
    (∀ (conn : Conn) (searchInp selInp : String) (rest : List String)
      (trace : List RemoteCall) (accounts : List SObj),
      conn.findLike "Account" (jsTrim searchInp) = Except.ok accounts →
      2 ≤ accounts.length →
      invalidSelection (jsTrim selInp) accounts.length = true →
      CaseCreationTs.acquireAccount conn ⟨searchInp :: selInp :: rest, trace⟩
        = (Except.error "Invalid account selection. Please enter a valid number from the list.",
           ⟨rest, trace ++ [RemoteCall.findLike "Account" (jsTrim searchInp)]⟩)) ∧
    (∀ (conn : Conn) (searchInp selInp : String) (rest : List String)
      (trace : List RemoteCall) (accounts : List SObj) (k : Int) (a : SObj),
      conn.findLike "Account" (jsTrim searchInp) = Except.ok accounts →
      2 ≤ accounts.length →
      parseIntJS (jsTrim selInp) = some k →
      1 ≤ k → k ≤ (accounts.length : Int) →
      accounts.get? (k - 1).toNat = some a →
      CaseCreationTs.acquireAccount conn ⟨searchInp :: selInp :: rest, trace⟩
        = (Except.ok a, ⟨rest, trace ++ [RemoteCall.findLike "Account" (jsTrim searchInp)]⟩)) ∧
    (∀ (caseDescribe : List SField) (fieldName promptLabel : String) (caseRecord : Rec)
      (inp : String) (rest : List String) (trace : List RemoteCall) (field : SField),
      truthyField caseRecord fieldName = false →
      caseDescribe.find? (fun f => f.name = fieldName) = some field →
      0 < field.picklistValues.length →
      invalidSelection (jsTrim inp) field.picklistValues.length = true →
      CaseCreationTs.acquirePicklist caseDescribe fieldName promptLabel caseRecord
          ⟨inp :: rest, trace⟩
        = (Except.ok caseRecord, ⟨rest, trace⟩)) ∧
    (∀ (caseDescribe : List SField) (fieldName promptLabel : String) (caseRecord : Rec)
      (inp : String) (rest : List String) (trace : List RemoteCall) (field : SField)
      (k : Int) (item : PicklistValue),
      truthyField caseRecord fieldName = false →
      caseDescribe.find? (fun f => f.name = fieldName) = some field →
      parseIntJS (jsTrim inp) = some k →
      1 ≤ k → k ≤ (field.picklistValues.length : Int) →
      field.picklistValues.get? (k - 1).toNat = some item →
      CaseCreationTs.acquirePicklist caseDescribe fieldName promptLabel caseRecord
          ⟨inp :: rest, trace⟩
        = (Except.ok (setField caseRecord fieldName (FieldVal.s item.value)), ⟨rest, trace⟩)) ∧
    (∀ (conn : Conn) (accountId : String) (caseRecord : Rec) (inp : String)
      (rest : List String) (trace : List RemoteCall) (contacts : List SObj),
      conn.findContacts accountId = Except.ok contacts →
      0 < contacts.length →
      jsTrim (jsTrim inp) ≠ "" →
      invalidSelection (jsTrim inp) contacts.length = true →
      CaseCreationTs.acquireContact conn accountId caseRecord ⟨inp :: rest, trace⟩
        = (Except.ok caseRecord, ⟨rest, trace ++ [RemoteCall.findContacts accountId]⟩)) ∧
    (∀ (conn : Conn) (accountId : String) (caseRecord : Rec) (inp : String)
      (rest : List String) (trace : List RemoteCall) (contacts : List SObj) (k : Int) (c : SObj),
      conn.findContacts accountId = Except.ok contacts →
      jsTrim (jsTrim inp) ≠ "" →
      parseIntJS (jsTrim inp) = some k →
      1 ≤ k → k ≤ (contacts.length : Int) →
      contacts.get? (k - 1).toNat = some c →
      CaseCreationTs.acquireContact conn accountId caseRecord ⟨inp :: rest, trace⟩
        = (Except.ok (setField caseRecord "ContactId" (FieldVal.s c.Id)),
           ⟨rest, trace ++ [RemoteCall.findContacts accountId]⟩)) ∧
    (∀ (conn : Conn) (field : SField) (caseRecord : Rec) (inp : String)
      (rest : List String) (trace : List RemoteCall),
      ¬(field.name = "AccountId" ∨ field.name = "ContactId" ∨ field.name = "Subject"
        ∨ field.name = "Description" ∨ field.name = "Origin" ∨ field.name = "Status"
        ∨ field.name = "Priority" ∨ (getField caseRecord field.name).isSome) →
      field.ftype = "picklist" →
      0 < field.picklistValues.length →
      invalidSelection (jsTrim inp) field.picklistValues.length = true →
      CaseCreationTs.processRequiredField conn field caseRecord ⟨inp :: rest, trace⟩
        = (Except.error
            ("Invalid " ++ field.label ++ " selection. Please enter a valid number from the list."),
           ⟨rest, trace⟩)) ∧
    (∀ (conn : Conn) (field : SField) (caseRecord : Rec) (searchInp selInp : String)
      (rest : List String) (trace : List RemoteCall) (records : List SObj),
      ¬(field.name = "AccountId" ∨ field.name = "ContactId" ∨ field.name = "Subject"
        ∨ field.name = "Description" ∨ field.name = "Origin" ∨ field.name = "Status"
        ∨ field.name = "Priority" ∨ (getField caseRecord field.name).isSome) →
      field.ftype = "reference" →
      0 < field.referenceTo.length →
      conn.findLike (field.referenceTo.getD 0 "") (jsTrim searchInp) = Except.ok records →
      2 ≤ records.length →
      invalidSelection (jsTrim selInp) records.length = true →
      CaseCreationTs.processRequiredField conn field caseRecord
          ⟨searchInp :: selInp :: rest, trace⟩
        = (Except.error ("Unable to find " ++ field.label ++ " records. Please try again."),
           ⟨rest, trace ++ [RemoteCall.findLike (field.referenceTo.getD 0 "") (jsTrim searchInp)]⟩)) ∧
    (∀ (conn : Conn) (field : SField) (caseRecord : Rec) (inp : String)
      (rest : List String) (trace : List RemoteCall) (k : Int) (item : PicklistValue),
      ¬(field.name = "AccountId" ∨ field.name = "ContactId" ∨ field.name = "Subject"
        ∨ field.name = "Description" ∨ field.name = "Origin" ∨ field.name = "Status"
        ∨ field.name = "Priority" ∨ (getField caseRecord field.name).isSome) →
      field.ftype = "picklist" →
      parseIntJS (jsTrim inp) = some k →
      1 ≤ k → k ≤ (field.picklistValues.length : Int) →
      field.picklistValues.get? (k - 1).toNat = some item →
      CaseCreationTs.processRequiredField conn field caseRecord ⟨inp :: rest, trace⟩
        = (Except.ok (setField caseRecord field.name (FieldVal.s item.value)),
           ⟨rest, trace⟩)) ∧
    (∀ (conn : Conn) (field : SField) (caseRecord : Rec) (searchInp selInp : String)
      (rest : List String) (trace : List RemoteCall) (records : List SObj) (k : Int) (r : SObj),
      ¬(field.name = "AccountId" ∨ field.name = "ContactId" ∨ field.name = "Subject"
        ∨ field.name = "Description" ∨ field.name = "Origin" ∨ field.name = "Status"
        ∨ field.name = "Priority" ∨ (getField caseRecord field.name).isSome) →
      field.ftype = "reference" →
      0 < field.referenceTo.length →
      conn.findLike (field.referenceTo.getD 0 "") (jsTrim searchInp) = Except.ok records →
      2 ≤ records.length →
      parseIntJS (jsTrim selInp) = some k →
      1 ≤ k → k ≤ (records.length : Int) →
      records.get? (k - 1).toNat = some r →
      CaseCreationTs.processRequiredField conn field caseRecord
          ⟨searchInp :: selInp :: rest, trace⟩
        = (Except.ok (setField caseRecord field.name (FieldVal.s r.Id)),
           ⟨rest, trace
             ++ [RemoteCall.findLike (field.referenceTo.getD 0 "") (jsTrim searchInp)]⟩)) :=
  ⟨acquireAccount_invalid, acquireAccount_valid, acquirePicklist_skip_invalid,
   acquirePicklist_valid, acquireContact_skip_invalid, acquireContact_valid,
   processRequiredField_picklist_invalid, processRequiredField_reference_invalid,
   processRequiredField_picklist_valid, processRequiredField_reference_valid⟩

theorem c2_amended_selection_behavior_witness :
    CaseCreationTs.acquirePicklist [fieldOrigin] "Origin" "Select an origin:\n" []
        ⟨["7"], []⟩
      = (Except.ok [], ⟨[], []⟩) :=
  c2_amended_selection_behavior.2.2.1 [fieldOrigin] "Origin" "Select an origin:\n" [] "7" [] []
    fieldOrigin (by decide) (by decide) (by decide) (by decide)

theorem handleDML_update_inv {conn : Conn} {args : DMLArgs} {st st' : St}
    {out : Except String HandlerResult}
    (hop : args.operation = DMLOp.update)
    (h : CaseCreationTs.handleDMLRecords conn args st = (out, st')) :
    (∃ m, conn.update args.objectName args.records = Except.error m ∧ out = Except.error m) ∨
    (∃ results, conn.update args.objectName args.records = Except.ok results ∧
      out = Except.ok { text := formatDMLResponse args.operation results, isError := false }) := by
  unfold CaseCreationTs.handleDMLRecords at h
  simp only [bind_is_Mbind, pure_is_Mpure] at h
  rw [hop] at h
  rw [hop]
  try simp only [] at h
  rcases hu : conn.update args.objectName args.records with m | results
  · have hcc : callUpdate conn args.objectName args.records st = (Except.error m,
        { st with trace := st.trace ++ [RemoteCall.update args.objectName args.records] }) := by
      unfold callUpdate callRemote
      rw [hu]
    rw [M.bind_of_error _ hcc] at h
    simp only [Prod.mk.injEq] at h
    exact Or.inl ⟨m, rfl, h.1.symm⟩
  · have hcc : callUpdate conn args.objectName args.records st = (Except.ok results,
        { st with trace := st.trace ++ [RemoteCall.update args.objectName args.records] }) := by
      unfold callUpdate callRemote
      rw [hu]
    rw [M.bind_of_ok _ hcc] at h
    unfold M.pure at h
    simp only [Prod.mk.injEq] at h
    exact Or.inr ⟨results, rfl, h.1.symm⟩

theorem handleDML_delete_inv {conn : Conn} {args : DMLArgs} {st st' : St}
    {out : Except String HandlerResult}
    (hop : args.operation = DMLOp.delete)
    (h : CaseCreationTs.handleDMLRecords conn args st = (out, st')) :
    (∃ m, conn.destroy args.objectName (args.records.map (fun r => getField r "Id"))
        = Except.error m ∧ out = Except.error m) ∨
    (∃ results, conn.destroy args.objectName (args.records.map (fun r => getField r "Id"))
        = Except.ok results ∧
      out = Except.ok { text := formatDMLResponse args.operation results, isError := false }) := by
  unfold CaseCreationTs.handleDMLRecords at h
  simp only [bind_is_Mbind, pure_is_Mpure] at h
  rw [hop] at h
  rw [hop]
  try simp only [] at h
  rcases hu : conn.destroy args.objectName (args.records.map (fun r => getField r "Id"))
    with m | results
  · have hcc : callDestroy conn args.objectName (args.records.map (fun r => getField r "Id")) st
        = (Except.error m, { st with trace := st.trace
          ++ [RemoteCall.destroy args.objectName (args.records.map (fun r => getField r "Id"))] }) := by
      unfold callDestroy callRemote
      rw [hu]
    rw [M.bind_of_error _ hcc] at h
    simp only [Prod.mk.injEq] at h
    exact Or.inl ⟨m, rfl, h.1.symm⟩
  · have hcc : callDestroy conn args.objectName (args.records.map (fun r => getField r "Id")) st
        = (Except.ok results, { st with trace := st.trace
          ++ [RemoteCall.destroy args.objectName (args.records.map (fun r => getField r "Id"))] }) := by
      unfold callDestroy callRemote
      rw [hu]
    rw [M.bind_of_ok _ hcc] at h
    unfold M.pure at h
    simp only [Prod.mk.injEq] at h
    exact Or.inr ⟨results, rfl, h.1.symm⟩

theorem handleDML_upsert_inv {conn : Conn} {args : DMLArgs} {st st' : St}
    {out : Except String HandlerResult}
    (hop : args.operation = DMLOp.upsert)
    (h : CaseCreationTs.handleDMLRecords conn args st = (out, st')) :
    ((args.externalIdField = none ∨ args.externalIdField = some "") ∧
      out = Except.error "externalIdField is required for upsert operations" ∧ st' = st) ∨
    (∃ s results, args.externalIdField = some s ∧ s ≠ "" ∧
      conn.upsert args.objectName args.records s = Except.ok results ∧
      out = Except.ok { text := formatDMLResponse args.operation results, isError := false }) ∨
    (∃ s m, args.externalIdField = some s ∧ s ≠ "" ∧
      conn.upsert args.objectName args.records s = Except.error m ∧ out = Except.error m) := by
  unfold CaseCreationTs.handleDMLRecords at h
  simp only [bind_is_Mbind, pure_is_Mpure] at h
  rw [hop] at h
  rw [hop]
  try simp only [] at h
  rcases he : args.externalIdField with _ | s
  · rw [he] at h
    try simp only [] at h
    have h' : ((Except.error "externalIdField is required for upsert operations" :
        Except String HandlerResult), st) = (out, st') := h
    simp only [Prod.mk.injEq] at h'
    exact Or.inl ⟨Or.inl rfl, h'.1.symm, h'.2.symm⟩
  · rw [he] at h
    try simp only [] at h
    by_cases hs : s = ""
    · rw [if_pos hs] at h
      have h' : ((Except.error "externalIdField is required for upsert operations" :
          Except String HandlerResult), st) = (out, st') := h
      simp only [Prod.mk.injEq] at h'
      exact Or.inl ⟨Or.inr (by rw [hs]), h'.1.symm, h'.2.symm⟩
    · rw [if_neg hs] at h
      rcases hu : conn.upsert args.objectName args.records s with m | results
      · have hcc : callUpsert conn args.objectName args.records s st = (Except.error m,
            { st with trace := st.trace
              ++ [RemoteCall.upsert args.objectName args.records s] }) := by
          unfold callUpsert callRemote
          rw [hu]
        rw [M.bind_of_error _ hcc] at h
        simp only [Prod.mk.injEq] at h
        exact Or.inr (Or.inr ⟨s, m, rfl, hs, hu, h.1.symm⟩)
      · have hcc : callUpsert conn args.objectName args.records s st = (Except.ok results,
            { st with trace := st.trace
              ++ [RemoteCall.upsert args.objectName args.records s] }) := by
          unfold callUpsert callRemote
          rw [hu]
        rw [M.bind_of_ok _ hcc] at h
        unfold M.pure at h
        simp only [Prod.mk.injEq] at h
        exact Or.inr (Or.inl ⟨s, results, rfl, hs, hu, h.1.symm⟩)

theorem handleDML_insert_nonCase_inv {conn : Conn} {args : DMLArgs} {st st' : St}
    {out : Except String HandlerResult}
    (hop : args.operation = DMLOp.insert) (hobj : args.objectName ≠ "Case")
    (h : CaseCreationTs.handleDMLRecords conn args st = (out, st')) :
    (∃ m, conn.create args.objectName args.records = Except.error m ∧ out = Except.error m) ∨
    (∃ results, conn.create args.objectName args.records = Except.ok results ∧
      out = Except.ok { text := formatDMLResponse args.operation results, isError := false }) := by
  unfold CaseCreationTs.handleDMLRecords at h
  simp only [bind_is_Mbind, pure_is_Mpure] at h
  rw [hop] at h
  rw [hop]
  try simp only [] at h
  rw [if_neg hobj] at h
  rcases hu : conn.create args.objectName args.records with m | results
  · have hcc : callCreate conn args.objectName args.records st = (Except.error m,
        { st with trace := st.trace ++ [RemoteCall.create args.objectName args.records] }) := by
      unfold callCreate callRemote
      rw [hu]
    rw [M.bind_of_error _ hcc] at h
    simp only [Prod.mk.injEq] at h
    exact Or.inl ⟨m, rfl, h.1.symm⟩
  · have hcc : callCreate conn args.objectName args.records st = (Except.ok results,
        { st with trace := st.trace ++ [RemoteCall.create args.objectName args.records] }) := by
      unfold callCreate callRemote
      rw [hu]
    rw [M.bind_of_ok _ hcc] at h
    unfold M.pure at h
    simp only [Prod.mk.injEq] at h
    exact Or.inr ⟨results, rfl, h.1.symm⟩

theorem handleDML_insert_case_inv {conn : Conn} {args : DMLArgs} {st st' : St}
    {out : Except String HandlerResult}
    (hop : args.operation = DMLOp.insert) (hobj : args.objectName = "Case")
    (h : CaseCreationTs.handleDMLRecords conn args st = (out, st')) :
    (∃ e st1, CaseCreationTs.advancedGuidedCaseCreation conn st = (Except.error e, st1) ∧
      out = Except.error e) ∨
    (∃ rec st1 m, CaseCreationTs.advancedGuidedCaseCreation conn st = (Except.ok rec, st1) ∧
      conn.create "Case" [rec] = Except.error m ∧ out = Except.error m) ∨
    (∃ rec st1 results, CaseCreationTs.advancedGuidedCaseCreation conn st = (Except.ok rec, st1) ∧
      conn.create "Case" [rec] = Except.ok results ∧
      out = Except.ok { text := formatDMLResponse args.operation results, isError := false }) := by
  unfold CaseCreationTs.handleDMLRecords at h
  simp only [bind_is_Mbind, pure_is_Mpure] at h
  rw [hop] at h
  rw [hop]
  try simp only [] at h
  rw [if_pos hobj, hobj] at h
  rcases hA : CaseCreationTs.advancedGuidedCaseCreation conn st with ⟨ra, sta⟩
  cases ra with
  | error e =>
    rw [M.bind_of_error _ hA] at h
    simp only [Prod.mk.injEq] at h
    exact Or.inl ⟨e, sta, rfl, h.1.symm⟩
  | ok rec =>
    rw [M.bind_of_ok _ hA] at h
    rcases hu : conn.create "Case" [rec] with m | results
    · have hcc : callCreate conn "Case" [rec] sta = (Except.error m,
          { sta with trace := sta.trace ++ [RemoteCall.create "Case" [rec]] }) := by
        unfold callCreate callRemote
        rw [hu]
      rw [M.bind_of_error _ hcc] at h
      simp only [Prod.mk.injEq] at h
      exact Or.inr (Or.inl ⟨rec, sta, m, rfl, hu, h.1.symm⟩)
    · have hcc : callCreate conn "Case" [rec] sta = (Except.ok results,
          { sta with trace := sta.trace ++ [RemoteCall.create "Case" [rec]] }) := by
        unfold callCreate callRemote
        rw [hu]
      rw [M.bind_of_ok _ hcc] at h
      unfold M.pure at h
      simp only [Prod.mk.injEq] at h
      exact Or.inr (Or.inr ⟨rec, sta, results, rfl, hu, h.1.symm⟩)

theorem dmlTs_insert_case {conn : Conn} {args : DMLArgs} (st : St)
    (hop : args.operation = DMLOp.insert) (hobj : args.objectName = "Case") :
    DmlTs.handleDMLRecords conn args st
      = (Except.ok { text := DmlTs.caseRejectionText, isError := true }, st) := by
  unfold DmlTs.handleDMLRecords
  rw [hop]
  simp only []
  rw [if_pos hobj]
  rfl

theorem dmlTs_update_inv {conn : Conn} {args : DMLArgs} {st st' : St}
    {out : Except String HandlerResult}
    (hop : args.operation = DMLOp.update)
    (h : DmlTs.handleDMLRecords conn args st = (out, st')) :
    (∃ m, conn.update args.objectName args.records = Except.error m ∧ out = Except.error m) ∨
    (∃ results, conn.update args.objectName args.records = Except.ok results ∧
      out = Except.ok { text := formatDMLResponse args.operation results, isError := false }) := by
  unfold DmlTs.handleDMLRecords at h
  simp only [bind_is_Mbind, pure_is_Mpure] at h
  rw [hop] at h
  rw [hop]
  try simp only [] at h
  rcases hu : conn.update args.objectName args.records with m | results
  · have hcc : callUpdate conn args.objectName args.records st = (Except.error m,
        { st with trace := st.trace ++ [RemoteCall.update args.objectName args.records] }) := by
      unfold callUpdate callRemote
      rw [hu]
    rw [M.bind_of_error _ hcc] at h
    simp only [Prod.mk.injEq] at h
    exact Or.inl ⟨m, rfl, h.1.symm⟩
  · have hcc : callUpdate conn args.objectName args.records st = (Except.ok results,
        { st with trace := st.trace ++ [RemoteCall.update args.objectName args.records] }) := by
      unfold callUpdate callRemote
      rw [hu]
    rw [M.bind_of_ok _ hcc] at h
    unfold M.pure at h
    simp only [Prod.mk.injEq] at h
    exact Or.inr ⟨results, rfl, h.1.symm⟩

theorem dmlTs_upsert_inv {conn : Conn} {args : DMLArgs} {st st' : St}
    {out : Except String HandlerResult}
    (hop : args.operation = DMLOp.upsert)
    (h : DmlTs.handleDMLRecords conn args st = (out, st')) :
    ((args.externalIdField = none ∨ args.externalIdField = some "") ∧
      out = Except.error "externalIdField is required for upsert operations" ∧ st' = st) ∨
    (∃ s results, args.externalIdField = some s ∧ s ≠ "" ∧
      conn.upsert args.objectName args.records s = Except.ok results ∧
      out = Except.ok { text := formatDMLResponse args.operation results, isError := false }) ∨
    (∃ s m, args.externalIdField = some s ∧ s ≠ "" ∧
      conn.upsert args.objectName args.records s = Except.error m ∧ out = Except.error m) := by
  unfold DmlTs.handleDMLRecords at h
  simp only [bind_is_Mbind, pure_is_Mpure] at h
  rw [hop] at h
  rw [hop]
  try simp only [] at h
  rcases he : args.externalIdField with _ | s
  · rw [he] at h
    try simp only [] at h
    have h' : ((Except.error "externalIdField is required for upsert operations" :
        Except String HandlerResult), st) = (out, st') := h
    simp only [Prod.mk.injEq] at h'
    exact Or.inl ⟨Or.inl rfl, h'.1.symm, h'.2.symm⟩
  · rw [he] at h
    try simp only [] at h
    by_cases hs : s = ""
    · rw [if_pos hs] at h
      have h' : ((Except.error "externalIdField is required for upsert operations" :
          Except String HandlerResult), st) = (out, st') := h
      simp only [Prod.mk.injEq] at h'
      exact Or.inl ⟨Or.inr (by rw [hs]), h'.1.symm, h'.2.symm⟩
    · rw [if_neg hs] at h
      rcases hu : conn.upsert args.objectName args.records s with m | results
      · have hcc : callUpsert conn args.objectName args.records s st = (Except.error m,
            { st with trace := st.trace
              ++ [RemoteCall.upsert args.objectName args.records s] }) := by
          unfold callUpsert callRemote
          rw [hu]
        rw [M.bind_of_error _ hcc] at h
        simp only [Prod.mk.injEq] at h
        exact Or.inr (Or.inr ⟨s, m, rfl, hs, hu, h.1.symm⟩)
      · have hcc : callUpsert conn args.objectName args.records s st = (Except.ok results,
            { st with trace := st.trace
              ++ [RemoteCall.upsert args.objectName args.records s] }) := by
          unfold callUpsert callRemote
          rw [hu]
        rw [M.bind_of_ok _ hcc] at h
        unfold M.pure at h
        simp only [Prod.mk.injEq] at h
        exact Or.inr (Or.inl ⟨s, results, rfl, hs, hu, h.1.symm⟩)

theorem dmlTs_insert_nonCase_inv {conn : Conn} {args : DMLArgs} {st st' : St}
    {out : Except String HandlerResult}
    (hop : args.operation = DMLOp.insert) (hobj : args.objectName ≠ "Case")
    (h : DmlTs.handleDMLRecords conn args st = (out, st')) :
    (∃ m, conn.create args.objectName args.records = Except.error m ∧ out = Except.error m) ∨
    (∃ results, conn.create args.objectName args.records = Except.ok results ∧
      out = Except.ok { text := formatDMLResponse args.operation results, isError := false }) := by
  unfold DmlTs.handleDMLRecords at h
  simp only [bind_is_Mbind, pure_is_Mpure] at h
  rw [hop] at h
  rw [hop]
  try simp only [] at h
  rw [if_neg hobj] at h
  rcases hu : conn.create args.objectName args.records with m | results
  · have hcc : callCreate conn args.objectName args.records st = (Except.error m,
        { st with trace := st.trace ++ [RemoteCall.create args.objectName args.records] }) := by
      unfold callCreate callRemote
      rw [hu]
    rw [M.bind_of_error _ hcc] at h
    simp only [Prod.mk.injEq] at h
    exact Or.inl ⟨m, rfl, h.1.symm⟩
  · have hcc : callCreate conn args.objectName args.records st = (Except.ok results,
        { st with trace := st.trace ++ [RemoteCall.create args.objectName args.records] }) := by
      unfold callCreate callRemote
      rw [hu]
    rw [M.bind_of_ok _ hcc] at h
    unfold M.pure at h
    simp only [Prod.mk.injEq] at h
    exact Or.inr ⟨results, rfl, h.1.symm⟩

theorem dmlTs_delete_inv {conn : Conn} {args : DMLArgs} {st st' : St}
    {out : Except String HandlerResult}
    (hop : args.operation = DMLOp.delete)
    (h : DmlTs.handleDMLRecords conn args st = (out, st')) :
    (∃ m, conn.destroy args.objectName (args.records.map (fun r => getField r "Id"))
        = Except.error m ∧ out = Except.error m) ∨
    (∃ results, conn.destroy args.objectName (args.records.map (fun r => getField r "Id"))
        = Except.ok results ∧
      out = Except.ok { text := formatDMLResponse args.operation results, isError := false }) := by
  unfold DmlTs.handleDMLRecords at h
  simp only [bind_is_Mbind, pure_is_Mpure] at h
  rw [hop] at h
  rw [hop]
  try simp only [] at h
  rcases hu : conn.destroy args.objectName (args.records.map (fun r => getField r "Id"))
    with m | results
  · have hcc : callDestroy conn args.objectName (args.records.map (fun r => getField r "Id")) st
        = (Except.error m, { st with trace := st.trace
          ++ [RemoteCall.destroy args.objectName (args.records.map (fun r => getField r "Id"))] }) := by
      unfold callDestroy callRemote
      rw [hu]
    rw [M.bind_of_error _ hcc] at h
    simp only [Prod.mk.injEq] at h
    exact Or.inl ⟨m, rfl, h.1.symm⟩
  · have hcc : callDestroy conn args.objectName (args.records.map (fun r => getField r "Id")) st
        = (Except.ok results, { st with trace := st.trace
          ++ [RemoteCall.destroy args.objectName (args.records.map (fun r => getField r "Id"))] }) := by
      unfold callDestroy callRemote
      rw [hu]
    rw [M.bind_of_ok _ hcc] at h
    unfold M.pure at h
    simp only [Prod.mk.injEq] at h
    exact Or.inr ⟨results, rfl, h.1.symm⟩

theorem concatAll_cons (x : String) (xs : List String) :
    concatAll (x :: xs) = x ++ concatAll xs := rfl

theorem concatAll_infix {l : List String} {x : String} (hx : x ∈ l) :
    ∃ a b, concatAll l = a ++ x ++ b := by
  induction l with
  | nil => cases hx
  | cons y ys ih =>
    rcases List.mem_cons.mp hx with rfl | hx'
    · refine ⟨"", concatAll ys, ?_⟩
      rw [concatAll_cons]
      simp
    · obtain ⟨a, b, hab⟩ := ih hx'
      refine ⟨y ++ a, b, ?_⟩
      rw [concatAll_cons, hab]
      simp [String.append_assoc]

theorem tally_total (results : List DMLResult) :
    successCountOf results + failureCountOf results = results.length := by
  have h2 : failureCountOf results = results.length - successCountOf results := rfl
  have h3 : successCountOf results ≤ results.length := List.length_filter_le _ _
  omega

theorem handleDML_ok_shape {conn : Conn} {args : DMLArgs} {st st' : St}
    {out : Except String HandlerResult} {r : HandlerResult}
    (h : CaseCreationTs.handleDMLRecords conn args st = (out, st'))
    (hout : out = Except.ok r) :
    r.isError = false ∧ ∃ results, r.text = formatDMLResponse args.operation results := by
  subst hout
  cases hop : args.operation with
  | insert =>
    by_cases hobj : args.objectName = "Case"
    · rcases handleDML_insert_case_inv hop hobj h with ⟨e, st1, _, hoe⟩ |
        ⟨rec, st1, m, _, _, hoe⟩ | ⟨rec, st1, results, _, _, hoe⟩
      · simp at hoe
      · simp at hoe
      · simp only [Except.ok.injEq] at hoe
        rw [hoe, hop]
        exact ⟨rfl, results, rfl⟩
    · rcases handleDML_insert_nonCase_inv hop hobj h with ⟨m, _, hoe⟩ | ⟨results, _, hoe⟩
      · simp at hoe
      · simp only [Except.ok.injEq] at hoe
        rw [hoe, hop]
        exact ⟨rfl, results, rfl⟩
  | update =>
    rcases handleDML_update_inv hop h with ⟨m, _, hoe⟩ | ⟨results, _, hoe⟩
    · simp at hoe
    · simp only [Except.ok.injEq] at hoe
      rw [hoe, hop]
      exact ⟨rfl, results, rfl⟩
  | delete =>
    rcases handleDML_delete_inv hop h with ⟨m, _, hoe⟩ | ⟨results, _, hoe⟩
    · simp at hoe
    · simp only [Except.ok.injEq] at hoe
      rw [hoe, hop]
      exact ⟨rfl, results, rfl⟩
  | upsert =>
    rcases handleDML_upsert_inv hop h with ⟨_, hoe, _⟩ |
      ⟨s, results, _, _, _, hoe⟩ | ⟨s, m, _, _, _, hoe⟩
    · simp at hoe
    · simp only [Except.ok.injEq] at hoe
      rw [hoe, hop]
      exact ⟨rfl, results, rfl⟩
    · simp at hoe

theorem dmlTs_ok_shape {conn : Conn} {args : DMLArgs} {st st' : St}
    {out : Except String HandlerResult} {r : HandlerResult}
    (hnc : ¬(args.operation = DMLOp.insert ∧ args.objectName = "Case"))
    (h : DmlTs.handleDMLRecords conn args st = (out, st'))
    (hout : out = Except.ok r) :
    r.isError = false ∧ ∃ results, r.text = formatDMLResponse args.operation results := by
  subst hout
  cases hop : args.operation with
  | insert =>
    by_cases hobj : args.objectName = "Case"
    · exact absurd ⟨hop, hobj⟩ hnc
    · rcases dmlTs_insert_nonCase_inv hop hobj h with ⟨m, _, hoe⟩ | ⟨results, _, hoe⟩
      · simp at hoe
      · simp only [Except.ok.injEq] at hoe
        rw [hoe, hop]
        exact ⟨rfl, results, rfl⟩
  | update =>
    rcases dmlTs_update_inv hop h with ⟨m, _, hoe⟩ | ⟨results, _, hoe⟩
    · simp at hoe
    · simp only [Except.ok.injEq] at hoe
      rw [hoe, hop]
      exact ⟨rfl, results, rfl⟩
  | delete =>
    rcases dmlTs_delete_inv hop h with ⟨m, _, hoe⟩ | ⟨results, _, hoe⟩
    · simp at hoe
    · simp only [Except.ok.injEq] at hoe
      rw [hoe, hop]
      exact ⟨rfl, results, rfl⟩
  | upsert =>
    rcases dmlTs_upsert_inv hop h with ⟨_, hoe, _⟩ |
      ⟨s, results, _, _, _, hoe⟩ | ⟨s, m, _, _, _, hoe⟩
    · simp at hoe
    · simp only [Except.ok.injEq] at hoe
      rw [hoe, hop]
      exact ⟨rfl, results, rfl⟩
    · simp at hoe

/-- C8: a DML batch whose remote call completes — even with a mix of
per-record successes and failures — is reported with `isError: false` and the
formatted report, which contains the success/failure tally and, for every
failed record with error detail, that record's error block (message, optional
status code, offending fields); partial failure is never an error result. -/
theorem c8_partial_failure_not_error :
    (∀ (conn : Conn) (args : DMLArgs) (st st' : St) (out : Except String HandlerResult)
      (r : HandlerResult),
      CaseCreationTs.handleDMLRecords conn args st = (out, st') →
      out = Except.ok r →
      r.isError = false ∧ ∃ results, r.text = formatDMLResponse args.operation results) ∧
    (∀ (conn : Conn) (args : DMLArgs) (st st' : St) (out : Except String HandlerResult)
      (r : HandlerResult),
      ¬(args.operation = DMLOp.insert ∧ args.objectName = "Case") →
      DmlTs.handleDMLRecords conn args st = (out, st') →
      out = Except.ok r →
      r.isError = false ∧ ∃ results, r.text = formatDMLResponse args.operation results) ∧
    (∀ (operation : DMLOp) (results : List DMLResult),
      ∃ rest, formatDMLResponse operation results
        = jsToUpper operation.str ++ " operation completed.\n"
          ++ "Processed " ++ toString results.length ++ " records:\n"
          ++ "- Successful: " ++ toString (successCountOf results) ++ "\n"
          ++ "- Failed: " ++ toString (failureCountOf results) ++ "\n" ++ rest
          ∧ successCountOf results + failureCountOf results = results.length) ∧
    (∀ (operation : DMLOp) (results : List DMLResult) (idx : Nat) (rr : DMLResult)
      (errs : DMLErrors),
      (idx, rr) ∈ results.enum → rr.success = false → rr.errors = some errs →
      ∃ pre post, formatDMLResponse operation results
        = pre ++ recordErrorBlock (idx, rr) ++ post) ∧
    (∀ (conn : Conn) (args : DMLArgs) (st st' : St) (out : Except String HandlerResult)
      (results : List DMLResult),
      args.operation = DMLOp.update →
      CaseCreationTs.handleDMLRecords conn args st = (out, st') →
      conn.update args.objectName args.records = Except.ok results →
      out = Except.ok { text := formatDMLResponse args.operation results, isError := false }) ∧
    (∀ (conn : Conn) (args : DMLArgs) (st st' : St) (out : Except String HandlerResult)
      (results : List DMLResult),
      args.operation = DMLOp.update →
      DmlTs.handleDMLRecords conn args st = (out, st') →
      conn.update args.objectName args.records = Except.ok results →
      out = Except.ok { text := formatDMLResponse args.operation results, isError := false }) := by
  refine ⟨fun conn args st st' out r h hout => handleDML_ok_shape h hout,
    fun conn args st st' out r hnc h hout => dmlTs_ok_shape hnc h hout, ?_, ?_, ?_, ?_⟩
  · intro operation results
    refine ⟨(if successCountOf results > 0 then
        "\nSuccessful Records:\n" ++ concatAll (results.enum.map successLine) else "")
      ++ "\n"
      ++ (if failureCountOf results > 0 then
        "Errors:\n" ++ concatAll (results.enum.map recordErrorBlock) else ""),
      ?_, tally_total results⟩
    unfold formatDMLResponse dmlHeader
    simp only [String.append_assoc]
  · intro operation results idx rr errs hmem hfail herr
    have hget := List.mem_enum_iff_get?.mp hmem
    have hrrmem : rr ∈ results := List.get?_mem hget
    have hfc : 0 < failureCountOf results := by
      have hlt : (results.filter (fun r => r.success)).length < results.length := by
        rw [List.length_filter_lt_length_iff_exists]
        exact ⟨rr, hrrmem, by simp [hfail]⟩
      have h2 : failureCountOf results = results.length - successCountOf results := rfl
      have h3 : successCountOf results = (results.filter (fun r => r.success)).length := rfl
      omega
    have hblockmem : recordErrorBlock (idx, rr) ∈ (results.enum).map recordErrorBlock :=
      List.mem_map_of_mem _ hmem
    obtain ⟨a, b, hab⟩ := concatAll_infix hblockmem
    refine ⟨dmlHeader operation results
      ++ (if successCountOf results > 0 then
        "\nSuccessful Records:\n" ++ concatAll (results.enum.map successLine) else "")
      ++ "\n" ++ "Errors:\n" ++ a, b, ?_⟩
    unfold formatDMLResponse
    rw [if_pos hfc, hab]
    simp only [String.append_assoc]
  · intro conn args st st' out results hop h hu
    rcases handleDML_update_inv hop h with ⟨m, hum, hoe⟩ | ⟨results2, hur, hoe⟩
    · rw [hu] at hum
      cases hum
    · rw [hu] at hur
      injection hur with h2
      rw [hoe, h2]
  · intro conn args st st' out results hop h hu
    rcases dmlTs_update_inv hop h with ⟨m, hum, hoe⟩ | ⟨results2, hur, hoe⟩
    · rw [hu] at hum
      cases hum
    · rw [hu] at hur
      injection hur with h2
      rw [hoe, h2]

theorem c8_partial_failure_not_error_witness :
    (HandlerResult.mk (formatDMLResponse DMLOp.update mixedResults) false).isError = false ∧
    ∃ results, (HandlerResult.mk (formatDMLResponse DMLOp.update mixedResults) false).text
      = formatDMLResponse DMLOp.update results :=
  c8_partial_failure_not_error.1 connMix
    { operation := DMLOp.update, objectName := "Account", records := [[], []] }
    ⟨[], []⟩ ⟨[], [RemoteCall.update "Account" [[], []]]⟩
    (Except.ok (HandlerResult.mk (formatDMLResponse DMLOp.update mixedResults) false))
    (HandlerResult.mk (formatDMLResponse DMLOp.update mixedResults) false)
    (by set_option maxRecDepth 4000 in decide) rfl

theorem conn0_lengthPreserving : lengthPreserving conn0 := by
  refine ⟨?_, ?_, ?_, ?_⟩
  · intro o rs res h
    have h' : Except.ok (rs.map (fun _ => okResult)) = Except.ok res := h
    injection h' with h2
    rw [← h2, List.length_map]
  · intro o rs res h
    have h' : Except.ok (rs.map (fun _ => okResult)) = Except.ok res := h
    injection h' with h2
    rw [← h2, List.length_map]
  · intro o ids res h
    have h' : Except.ok (ids.map (fun _ => okResult)) = Except.ok res := h
    injection h' with h2
    rw [← h2, List.length_map]
  · intro o rs s res h
    have h' : Except.ok (rs.map (fun _ => okResult)) = Except.ok res := h
    injection h' with h2
    rw [← h2, List.length_map]

/-- C5 (amended): the reported tally always satisfies
`successCount + failureCount = results.length` for the per-record outcomes the
remote call returned; when the remote endpoints return one outcome per
submitted record, that total equals the caller's `records.length` for update,
delete, upsert, and non-Case insert — but an insert on Case processes exactly
the one guided-flow record, so the total is 1 regardless of `records.length`. -/
theorem c5_amended_tally_counts :
    (∀ results, successCountOf results + failureCountOf results = results.length) ∧
    (∀ (conn : Conn) (args : DMLArgs) (st st' : St) (out : Except String HandlerResult)
      (r : HandlerResult),
      lengthPreserving conn →
      (args.operation = DMLOp.update ∨ args.operation = DMLOp.delete
        ∨ args.operation = DMLOp.upsert
        ∨ (args.operation = DMLOp.insert ∧ args.objectName ≠ "Case")) →
      CaseCreationTs.handleDMLRecords conn args st = (out, st') →
      out = Except.ok r →
      ∃ results, r.text = formatDMLResponse args.operation results ∧
        successCountOf results + failureCountOf results = args.records.length) ∧
    (∀ (conn : Conn) (args : DMLArgs) (st st' : St) (out : Except String HandlerResult)
      (r : HandlerResult),
      lengthPreserving conn →
      args.operation = DMLOp.insert → args.objectName = "Case" →
      CaseCreationTs.handleDMLRecords conn args st = (out, st') →
      out = Except.ok r →
      ∃ results, r.text = formatDMLResponse args.operation results ∧
        successCountOf results + failureCountOf results = 1) := by
  refine ⟨tally_total, ?_, ?_⟩
  · intro conn args st st' out r hlp hops h hout
    subst hout
    rcases hops with hop | hop | hop | ⟨hop, hobj⟩
    · rcases handleDML_update_inv hop h with ⟨m, _, hoe⟩ | ⟨results, hu, hoe⟩
      · simp at hoe
      · simp only [Except.ok.injEq] at hoe
        refine ⟨results, by rw [hoe], ?_⟩
        rw [tally_total]
        exact hlp.2.1 _ _ _ hu
    · rcases handleDML_delete_inv hop h with ⟨m, _, hoe⟩ | ⟨results, hu, hoe⟩
      · simp at hoe
      · simp only [Except.ok.injEq] at hoe
        refine ⟨results, by rw [hoe], ?_⟩
        rw [tally_total]
        rw [hlp.2.2.1 _ _ _ hu, List.length_map]
    · rcases handleDML_upsert_inv hop h with ⟨_, hoe, _⟩ |
        ⟨s, results, _, _, hu, hoe⟩ | ⟨s, m, _, _, _, hoe⟩
      · simp at hoe
      · simp only [Except.ok.injEq] at hoe
        refine ⟨results, by rw [hoe], ?_⟩
        rw [tally_total]
        exact hlp.2.2.2 _ _ _ _ hu
      · simp at hoe
    · rcases handleDML_insert_nonCase_inv hop hobj h with ⟨m, _, hoe⟩ | ⟨results, hu, hoe⟩
      · simp at hoe
      · simp only [Except.ok.injEq] at hoe
        refine ⟨results, by rw [hoe], ?_⟩
        rw [tally_total]
        exact hlp.1 _ _ _ hu
  · intro conn args st st' out r hlp hop hobj h hout
    subst hout
    rcases handleDML_insert_case_inv hop hobj h with ⟨e, st1, _, hoe⟩ |
      ⟨rec, st1, m, _, _, hoe⟩ | ⟨rec, st1, results, _, hu, hoe⟩
    · simp at hoe
    · simp at hoe
    · simp only [Except.ok.injEq] at hoe
      refine ⟨results, by rw [hoe], ?_⟩
      rw [tally_total]
      exact hlp.1 _ _ _ hu

/-- C5 counterexample: an insert on Case with two caller-supplied records
completes with a reported tally of one processed record
(`successCount + failureCount = 1`, the single guided-flow record), not
`records.length = 2` — even though the connection returns one outcome per
submitted record. -/
theorem c5_counterexample_case_insert_tally :
    (CaseCreationTs.handleDMLRecords conn0
        { operation := DMLOp.insert, objectName := "Case", records := [[], []] })
        ⟨["acme", "a@b.c", "Bob", "Subj", "", "y"], []⟩
      = (Except.ok (HandlerResult.mk (formatDMLResponse DMLOp.insert [okResult]) false),
         ⟨[], [RemoteCall.describe "Case", RemoteCall.findLike "Account" "acme",
               RemoteCall.findContacts "001A",
               RemoteCall.create "Case" [[("AccountId", FieldVal.s "001A"),
                 ("SuppliedEmail", FieldVal.s "a@b.c"), ("SuppliedName", FieldVal.s "Bob"),
                 ("Subject", FieldVal.s "Subj")]]]⟩) ∧
    successCountOf [okResult] + failureCountOf [okResult] = 1 ∧
    ([([] : Rec), ([] : Rec)]).length = 2 ∧
    formatDMLResponse DMLOp.insert [okResult]
      = "INSERT operation completed.\nProcessed 1 records:\n- Successful: 1\n- Failed: 0\n\nSuccessful Records:\nRecord 1 - ID: 500A\n\n" ∧
    lengthPreserving conn0 :=
  ⟨by set_option maxRecDepth 4000 in decide, by decide, rfl,
   by set_option maxRecDepth 4000 in decide, conn0_lengthPreserving⟩

theorem c5_amended_tally_counts_witness :
    ∃ results, (HandlerResult.mk (formatDMLResponse DMLOp.update [okResult]) false).text
        = formatDMLResponse DMLOp.update results ∧
      successCountOf results + failureCountOf results = 1 :=
  c5_amended_tally_counts.2.1 conn0
    { operation := DMLOp.update, objectName := "Account", records := [[]] }
    ⟨[], []⟩ ⟨[], [RemoteCall.update "Account" [[]]]⟩
    (Except.ok (HandlerResult.mk (formatDMLResponse DMLOp.update [okResult]) false))
    (HandlerResult.mk (formatDMLResponse DMLOp.update [okResult]) false)
    conn0_lengthPreserving (Or.inl rfl) (by decide) rfl

/-- C4 (amended): an upsert with no `externalIdField` — or with an empty-string
one, which the handler's truthiness test also treats as missing — throws the
missing-parameter error before any remote call is issued (state unchanged);
with a non-empty `externalIdField` the upsert remote call is issued with it.
Both `handleDMLRecords` variants behave identically here. -/
theorem c4_amended_upsert_requires_external_id :
    (∀ (conn : Conn) (args : DMLArgs) (st : St),
      args.operation = DMLOp.upsert →
      (args.externalIdField = none ∨ args.externalIdField = some "") →
      CaseCreationTs.handleDMLRecords conn args st
        = (Except.error "externalIdField is required for upsert operations", st) ∧
      DmlTs.handleDMLRecords conn args st
        = (Except.error "externalIdField is required for upsert operations", st)) ∧
    (∀ (conn : Conn) (args : DMLArgs) (st : St) (s : String),
      args.operation = DMLOp.upsert →
      args.externalIdField = some s → s ≠ "" →
      (∃ out, CaseCreationTs.handleDMLRecords conn args st
        = (out, { st with trace := st.trace
            ++ [RemoteCall.upsert args.objectName args.records s] })) ∧
      (∃ out, DmlTs.handleDMLRecords conn args st
        = (out, { st with trace := st.trace
            ++ [RemoteCall.upsert args.objectName args.records s] }))) := by
  constructor
  · intro conn args st hop hext
    constructor
    · unfold CaseCreationTs.handleDMLRecords
      simp only [bind_is_Mbind, pure_is_Mpure]
      rcases hext with he | he
      · rw [hop, he]
        rfl
      · rw [hop, he]
        rfl
    · unfold DmlTs.handleDMLRecords
      simp only [bind_is_Mbind, pure_is_Mpure]
      rcases hext with he | he
      · rw [hop, he]
        rfl
      · rw [hop, he]
        rfl
  · intro conn args st s hop hsome hne
    constructor
    · rcases hu : conn.upsert args.objectName args.records s with m | results
      · refine ⟨Except.error m, ?_⟩
        unfold CaseCreationTs.handleDMLRecords
        simp only [bind_is_Mbind, pure_is_Mpure]
        rw [hop, hsome]
        try simp only []
        rw [if_neg hne]
        have hcc : callUpsert conn args.objectName args.records s st = (Except.error m,
            { st with trace := st.trace
              ++ [RemoteCall.upsert args.objectName args.records s] }) := by
          unfold callUpsert callRemote
          rw [hu]
        rw [M.bind_of_error _ hcc]
      · refine ⟨Except.ok (HandlerResult.mk (formatDMLResponse args.operation results) false), ?_⟩
        unfold CaseCreationTs.handleDMLRecords
        simp only [bind_is_Mbind, pure_is_Mpure]
        rw [hop, hsome]
        try simp only []
        rw [if_neg hne]
        have hcc : callUpsert conn args.objectName args.records s st = (Except.ok results,
            { st with trace := st.trace
              ++ [RemoteCall.upsert args.objectName args.records s] }) := by
          unfold callUpsert callRemote
          rw [hu]
        rw [M.bind_of_ok _ hcc]
        rfl
    · rcases hu : conn.upsert args.objectName args.records s with m | results
      · refine ⟨Except.error m, ?_⟩
        unfold DmlTs.handleDMLRecords
        simp only [bind_is_Mbind, pure_is_Mpure]
        rw [hop, hsome]
        try simp only []
        rw [if_neg hne]
        have hcc : callUpsert conn args.objectName args.records s st = (Except.error m,
            { st with trace := st.trace
              ++ [RemoteCall.upsert args.objectName args.records s] }) := by
          unfold callUpsert callRemote
          rw [hu]
        rw [M.bind_of_error _ hcc]
      · refine ⟨Except.ok (HandlerResult.mk (formatDMLResponse args.operation results) false), ?_⟩
        unfold DmlTs.handleDMLRecords
        simp only [bind_is_Mbind, pure_is_Mpure]
        rw [hop, hsome]
        try simp only []
        rw [if_neg hne]
        have hcc : callUpsert conn args.objectName args.records s st = (Except.ok results,
            { st with trace := st.trace
              ++ [RemoteCall.upsert args.objectName args.records s] }) := by
          unfold callUpsert callRemote
          rw [hu]
        rw [M.bind_of_ok _ hcc]
        rfl

/-- C4 counterexample: with `externalIdField` supplied as the empty string,
the upsert fails with the missing-parameter error and no remote call is
issued — refuting "when externalIdField is supplied, the upsert remote call
is issued with it" for this supplied value. -/
theorem c4_counterexample_empty_external_id :
    (CaseCreationTs.handleDMLRecords conn0
        { operation := DMLOp.upsert, objectName := "Lead", records := [[]],
          externalIdField := some "" }) ⟨[], []⟩
      = (Except.error "externalIdField is required for upsert operations", ⟨[], []⟩) ∧
    ({ operation := DMLOp.upsert, objectName := "Lead", records := [[]],
       externalIdField := some "" } : DMLArgs).externalIdField = some "" :=
  ⟨by decide, rfl⟩

theorem c4_amended_upsert_requires_external_id_witness :
    CaseCreationTs.handleDMLRecords conn0
        { operation := DMLOp.upsert, objectName := "Lead", records := [[]],
          externalIdField := some "" } ⟨[], []⟩
      = (Except.error "externalIdField is required for upsert operations", ⟨[], []⟩) ∧
    DmlTs.handleDMLRecords conn0
        { operation := DMLOp.upsert, objectName := "Lead", records := [[]],
          externalIdField := some "" } ⟨[], []⟩
      = (Except.error "externalIdField is required for upsert operations", ⟨[], []⟩) :=
  c4_amended_upsert_requires_external_id.1 conn0
    { operation := DMLOp.upsert, objectName := "Lead", records := [[]],
      externalIdField := some "" }
    ⟨[], []⟩ rfl (Or.inr rfl)

/-- C1 (amended): the two handleDMLRecords variants disagree on insert for
Case.  The caseCreation.ts variant diverts to the guided flow and creates
exactly the single accumulated record (caller-supplied records unused); the
dml.ts variant instead returns an `isError: true` redirection to the dedicated
case tools and submits nothing.  For every non-Case object, insert creates
exactly the caller-supplied records in both variants. -/
theorem c1_amended_case_insert_policy :
    (∀ (conn : Conn) (args : DMLArgs) (script : List String)
      (out : Except String HandlerResult) (st' : St),
      args.operation = DMLOp.insert → args.objectName = "Case" →
      CaseCreationTs.handleDMLRecords conn args ⟨script, []⟩ = (out, st') →
      (∀ rec st1, CaseCreationTs.advancedGuidedCaseCreation conn ⟨script, []⟩
          = (Except.ok rec, st1) →
        createCalls st'.trace = [RemoteCall.create "Case" [rec]]) ∧
      (∀ e st1, CaseCreationTs.advancedGuidedCaseCreation conn ⟨script, []⟩
          = (Except.error e, st1) →
        out = Except.error e ∧ createCalls st'.trace = [])) ∧
    (∀ (conn : Conn) (args : DMLArgs) (script : List String),
      args.operation = DMLOp.insert → args.objectName ≠ "Case" →
      ∃ out, CaseCreationTs.handleDMLRecords conn args ⟨script, []⟩
        = (out, ⟨script, [RemoteCall.create args.objectName args.records]⟩)) ∧
    (∀ (conn : Conn) (args : DMLArgs) (st : St),
      args.operation = DMLOp.insert → args.objectName = "Case" →
      DmlTs.handleDMLRecords conn args st
        = (Except.ok (HandlerResult.mk DmlTs.caseRejectionText true), st)) ∧
    (∀ (conn : Conn) (args : DMLArgs) (script : List String),
      args.operation = DMLOp.insert → args.objectName ≠ "Case" →
      ∃ out, DmlTs.handleDMLRecords conn args ⟨script, []⟩
        = (out, ⟨script, [RemoteCall.create args.objectName args.records]⟩)) := by
  refine ⟨?_, ?_, fun conn args st hop hobj => dmlTs_insert_case st hop hobj, ?_⟩
  · intro conn args script out st' hop hobj h
    unfold CaseCreationTs.handleDMLRecords at h
    simp only [bind_is_Mbind, pure_is_Mpure] at h
    rw [hop] at h
    try simp only [] at h
    rw [if_pos hobj, hobj] at h
    constructor
    · intro rec st1 hA
      have hsta := addsNoCreates_advancedGuidedCaseCreation conn ⟨script, []⟩ _ _ hA
      rw [M.bind_of_ok _ hA] at h
      have hstc : createCalls (st1.trace ++ [RemoteCall.create "Case" [rec]])
          = [RemoteCall.create "Case" [rec]] := by
        rw [createCalls_append, hsta]
        rfl
      rcases hc : conn.create "Case" [rec] with e | results
      · have hcc : callCreate conn "Case" [rec] st1 = (Except.error e,
            { st1 with trace := st1.trace ++ [RemoteCall.create "Case" [rec]] }) := by
          unfold callCreate callRemote
          rw [hc]
        rw [M.bind_of_error _ hcc] at h
        simp only [Prod.mk.injEq] at h
        rw [← h.2]
        exact hstc
      · have hcc : callCreate conn "Case" [rec] st1 = (Except.ok results,
            { st1 with trace := st1.trace ++ [RemoteCall.create "Case" [rec]] }) := by
          unfold callCreate callRemote
          rw [hc]
        rw [M.bind_of_ok _ hcc] at h
        unfold M.pure at h
        simp only [Prod.mk.injEq] at h
        rw [← h.2]
        exact hstc
    · intro e st1 hA
      rw [M.bind_of_error _ hA] at h
      simp only [Prod.mk.injEq] at h
      refine ⟨h.1.symm, ?_⟩
      have hsta := addsNoCreates_advancedGuidedCaseCreation conn ⟨script, []⟩ _ _ hA
      rw [← h.2, hsta]
      rfl
  · intro conn args script hop hobj
    rcases hc : conn.create args.objectName args.records with m | results
    · refine ⟨Except.error m, ?_⟩
      unfold CaseCreationTs.handleDMLRecords
      simp only [bind_is_Mbind, pure_is_Mpure]
      rw [hop]
      try simp only []
      rw [if_neg hobj]
      have hcc : callCreate conn args.objectName args.records ⟨script, []⟩ = (Except.error m,
          ⟨script, [RemoteCall.create args.objectName args.records]⟩) := by
        unfold callCreate callRemote
        rw [hc]
        rfl
      rw [M.bind_of_error _ hcc]
    · refine ⟨Except.ok (HandlerResult.mk (formatDMLResponse args.operation results) false), ?_⟩
      unfold CaseCreationTs.handleDMLRecords
      simp only [bind_is_Mbind, pure_is_Mpure]
      rw [hop]
      try simp only []
      rw [if_neg hobj]
      have hcc : callCreate conn args.objectName args.records ⟨script, []⟩ = (Except.ok results,
          ⟨script, [RemoteCall.create args.objectName args.records]⟩) := by
        unfold callCreate callRemote
        rw [hc]
        rfl
      rw [M.bind_of_ok _ hcc]
      rfl
  · intro conn args script hop hobj
    rcases hc : conn.create args.objectName args.records with m | results
    · refine ⟨Except.error m, ?_⟩
      unfold DmlTs.handleDMLRecords
      simp only [bind_is_Mbind, pure_is_Mpure]
      rw [hop]
      try simp only []
      rw [if_neg hobj]
      have hcc : callCreate conn args.objectName args.records ⟨script, []⟩ = (Except.error m,
          ⟨script, [RemoteCall.create args.objectName args.records]⟩) := by
        unfold callCreate callRemote
        rw [hc]
        rfl
      rw [M.bind_of_error _ hcc]
    · refine ⟨Except.ok (HandlerResult.mk (formatDMLResponse args.operation results) false), ?_⟩
      unfold DmlTs.handleDMLRecords
      simp only [bind_is_Mbind, pure_is_Mpure]
      rw [hop]
      try simp only []
      rw [if_neg hobj]
      have hcc : callCreate conn args.objectName args.records ⟨script, []⟩ = (Except.ok results,
          ⟨script, [RemoteCall.create args.objectName args.records]⟩) := by
        unfold callCreate callRemote
        rw [hc]
        rfl
      rw [M.bind_of_ok _ hcc]
      rfl

/-- C1 counterexample: the dml.ts handleDMLRecords variant, on insert for
Case, does not divert to the guided case-creation flow and creates nothing:
it returns the `isError: true` redirection text, consumes no user input, and
issues no remote call at all. -/
theorem c1_counterexample_dml_variant_rejects :
    DmlTs.handleDMLRecords conn0
        { operation := DMLOp.insert, objectName := "Case",
          records := [[("Subject", FieldVal.s "X")]] }
        ⟨["y"], []⟩
      = (Except.ok (HandlerResult.mk DmlTs.caseRejectionText true), ⟨["y"], []⟩) ∧
    (HandlerResult.mk DmlTs.caseRejectionText true).isError = true ∧
    createCalls ([] : List RemoteCall) = [] :=
  ⟨by set_option maxRecDepth 8000 in decide, rfl, rfl⟩

theorem c1_amended_case_insert_policy_witness :
    DmlTs.handleDMLRecords conn0
        { operation := DMLOp.insert, objectName := "Case", records := [[]] } ⟨[], []⟩
      = (Except.ok (HandlerResult.mk DmlTs.caseRejectionText true), ⟨[], []⟩) :=
  c1_amended_case_insert_policy.2.2.1 conn0
    { operation := DMLOp.insert, objectName := "Case", records := [[]] } ⟨[], []⟩ rfl rfl

theorem tryCatch_total {α : Type} (m : M α) (f : String → α) (st : St) :
    ∃ r st', M.tryCatch m (fun e => M.pure (f e)) st = (Except.ok r, st') := by
  rcases hi : m st with ⟨ri, sti⟩
  cases ri with
  | ok a =>
    refine ⟨a, sti, ?_⟩
    unfold M.tryCatch
    rw [hi]
  | error e =>
    refine ⟨f e, sti, ?_⟩
    unfold M.tryCatch
    rw [hi]
    rfl

theorem handleGetCaseMetadata_total (conn : Conn) (st : St) :
    ∃ r st', CaseCreationTs.handleGetCaseMetadata conn st = (Except.ok r, st') := by
  unfold CaseCreationTs.handleGetCaseMetadata
  simp only [pure_is_Mpure]
  exact tryCatch_total _ _ st

theorem handleSearchAccounts_total (conn : Conn) (searchTerm : String) (st : St) :
    ∃ r st', CaseCreationTs.handleSearchAccounts conn searchTerm st = (Except.ok r, st') := by
  unfold CaseCreationTs.handleSearchAccounts
  simp only [pure_is_Mpure]
  exact tryCatch_total _ _ st

theorem handleSearchContacts_total (conn : Conn) (accountId : String) (st : St) :
    ∃ r st', CaseCreationTs.handleSearchContacts conn accountId st = (Except.ok r, st') := by
  unfold CaseCreationTs.handleSearchContacts
  simp only [pure_is_Mpure]
  exact tryCatch_total _ _ st

theorem handleCreateCase_total (conn : Conn) (args : CaseCreationTs.CreateCaseArgs) (st : St) :
    ∃ r st', CaseCreationTs.handleCreateCase conn args st = (Except.ok r, st') := by
  unfold CaseCreationTs.handleCreateCase
  simp only [pure_is_Mpure]
  exact tryCatch_total _ _ st

theorem handleGetPicklistValues_total (conn : Conn) (fieldName : String) (st : St) :
    ∃ r st', CaseCreationTs.handleGetPicklistValues conn fieldName st = (Except.ok r, st') := by
  unfold CaseCreationTs.handleGetPicklistValues
  simp only [pure_is_Mpure]
  exact tryCatch_total _ _ st

theorem handleGetCaseMetadata_rejection (conn : Conn) (m : String) (st : St)
    (hf : conn.describeFields "Case" = Except.error m) :
    CaseCreationTs.handleGetCaseMetadata conn st
      = (Except.ok (HandlerResult.mk ("Error getting case metadata: " ++ m) true),
         { st with trace := st.trace ++ [RemoteCall.describe "Case"] }) := by
  unfold CaseCreationTs.handleGetCaseMetadata
  simp only [bind_is_Mbind, pure_is_Mpure]
  have hcc : callDescribe conn "Case" st = (Except.error m,
      { st with trace := st.trace ++ [RemoteCall.describe "Case"] }) := by
    unfold callDescribe callRemote
    rw [hf]
  unfold M.tryCatch
  rw [M.bind_of_error _ hcc]
  rfl

theorem handleSearchAccounts_rejection (conn : Conn) (searchTerm m : String) (st : St)
    (hf : conn.findLike "Account" searchTerm = Except.error m) :
    CaseCreationTs.handleSearchAccounts conn searchTerm st
      = (Except.ok (HandlerResult.mk ("Error searching accounts: " ++ m) true),
         { st with trace := st.trace ++ [RemoteCall.findLike "Account" searchTerm] }) := by
  unfold CaseCreationTs.handleSearchAccounts
  simp only [bind_is_Mbind, pure_is_Mpure]
  have hcc : callFindLike conn "Account" searchTerm st = (Except.error m,
      { st with trace := st.trace ++ [RemoteCall.findLike "Account" searchTerm] }) := by
    unfold callFindLike callRemote
    rw [hf]
  unfold M.tryCatch
  rw [M.bind_of_error _ hcc]
  rfl

theorem handleSearchContacts_rejection (conn : Conn) (accountId m : String) (st : St)
    (hf : conn.retrieve "Account" accountId = Except.error m) :
    CaseCreationTs.handleSearchContacts conn accountId st
      = (Except.ok (HandlerResult.mk ("Error searching contacts: " ++ m) true),
         { st with trace := st.trace ++ [RemoteCall.retrieve "Account" accountId] }) := by
  unfold CaseCreationTs.handleSearchContacts
  simp only [bind_is_Mbind, pure_is_Mpure]
  have hcc : callRetrieve conn "Account" accountId st = (Except.error m,
      { st with trace := st.trace ++ [RemoteCall.retrieve "Account" accountId] }) := by
    unfold callRetrieve callRemote
    rw [hf]
  unfold M.tryCatch
  rw [M.bind_of_error _ hcc]
  rfl

theorem handleCreateCase_rejection (conn : Conn) (args : CaseCreationTs.CreateCaseArgs)
    (m : String) (st : St)
    (hf : conn.createOne "Case" (CaseCreationTs.buildCaseRecord args) = Except.error m) :
    CaseCreationTs.handleCreateCase conn args st
      = (Except.ok (HandlerResult.mk ("Error creating case: " ++ m) true),
         { st with trace := st.trace
           ++ [RemoteCall.createOne "Case" (CaseCreationTs.buildCaseRecord args)] }) := by
  unfold CaseCreationTs.handleCreateCase
  simp only [bind_is_Mbind, pure_is_Mpure]
  have hcc : callCreateOne conn "Case" (CaseCreationTs.buildCaseRecord args) st
      = (Except.error m, { st with trace := st.trace
          ++ [RemoteCall.createOne "Case" (CaseCreationTs.buildCaseRecord args)] }) := by
    unfold callCreateOne callRemote
    rw [hf]
  unfold M.tryCatch
  rw [M.bind_of_error _ hcc]
  rfl

theorem handleGetPicklistValues_rejection (conn : Conn) (fieldName m : String) (st : St)
    (hf : conn.describeFields "Case" = Except.error m) :
    CaseCreationTs.handleGetPicklistValues conn fieldName st
      = (Except.ok (HandlerResult.mk ("Error getting picklist values: " ++ m) true),
         { st with trace := st.trace ++ [RemoteCall.describe "Case"] }) := by
  unfold CaseCreationTs.handleGetPicklistValues
  simp only [bind_is_Mbind, pure_is_Mpure]
  have hcc : callDescribe conn "Case" st = (Except.error m,
      { st with trace := st.trace ++ [RemoteCall.describe "Case"] }) := by
    unfold callDescribe callRemote
    rw [hf]
  unfold M.tryCatch
  rw [M.bind_of_error _ hcc]
  rfl

theorem handleDMLRecords_update_propagates (conn : Conn) (args : DMLArgs) (m : String) (st : St)
    (hop : args.operation = DMLOp.update)
    (hf : conn.update args.objectName args.records = Except.error m) :
    CaseCreationTs.handleDMLRecords conn args st
      = (Except.error m, { st with trace := st.trace
          ++ [RemoteCall.update args.objectName args.records] }) ∧
    DmlTs.handleDMLRecords conn args st
      = (Except.error m, { st with trace := st.trace
          ++ [RemoteCall.update args.objectName args.records] }) := by
  have hcc : callUpdate conn args.objectName args.records st = (Except.error m,
      { st with trace := st.trace ++ [RemoteCall.update args.objectName args.records] }) := by
    unfold callUpdate callRemote
    rw [hf]
  constructor
  · unfold CaseCreationTs.handleDMLRecords
    simp only [bind_is_Mbind, pure_is_Mpure]
    rw [hop]
    try simp only []
    rw [M.bind_of_error _ hcc]
  · unfold DmlTs.handleDMLRecords
    simp only [bind_is_Mbind, pure_is_Mpure]
    rw [hop]
    try simp only []
    rw [M.bind_of_error _ hcc]

/-- C3: corrected. The five case-creation handlers (get-case-metadata, search-accounts,
search-contacts, create-case, get-picklist-values) wrap their bodies in a total catch:
they always return `Except.ok`, and when their first remote call rejects they return an
`isError := true` result whose text is a handler-specific prefix followed by the remote
message. The DML handler, however, has no catch in either variant: a rejected remote
call (shown here for `update`) propagates as a thrown error (`Except.error`) to the
caller instead of an `isError` result. -/
theorem c3_amended_remote_failures (conn : Conn) (st : St) :
    (∀ st₁, ∃ r st', CaseCreationTs.handleGetCaseMetadata conn st₁ = (Except.ok r, st')) ∧
    (∀ searchTerm st₁, ∃ r st',
      CaseCreationTs.handleSearchAccounts conn searchTerm st₁ = (Except.ok r, st')) ∧
    (∀ accountId st₁, ∃ r st',
      CaseCreationTs.handleSearchContacts conn accountId st₁ = (Except.ok r, st')) ∧
    (∀ args st₁, ∃ r st',
      CaseCreationTs.handleCreateCase conn args st₁ = (Except.ok r, st')) ∧
    (∀ fieldName st₁, ∃ r st',
      CaseCreationTs.handleGetPicklistValues conn fieldName st₁ = (Except.ok r, st')) ∧
    (∀ m, conn.describeFields "Case" = Except.error m →
      CaseCreationTs.handleGetCaseMetadata conn st
        = (Except.ok (HandlerResult.mk ("Error getting case metadata: " ++ m) true),
           { st with trace := st.trace ++ [RemoteCall.describe "Case"] })) ∧
    (∀ searchTerm m, conn.findLike "Account" searchTerm = Except.error m →
      CaseCreationTs.handleSearchAccounts conn searchTerm st
        = (Except.ok (HandlerResult.mk ("Error searching accounts: " ++ m) true),
           { st with trace := st.trace ++ [RemoteCall.findLike "Account" searchTerm] })) ∧
    (∀ accountId m, conn.retrieve "Account" accountId = Except.error m →
      CaseCreationTs.handleSearchContacts conn accountId st
        = (Except.ok (HandlerResult.mk ("Error searching contacts: " ++ m) true),
           { st with trace := st.trace ++ [RemoteCall.retrieve "Account" accountId] })) ∧
    (∀ args m, conn.createOne "Case" (CaseCreationTs.buildCaseRecord args) = Except.error m →
      CaseCreationTs.handleCreateCase conn args st
        = (Except.ok (HandlerResult.mk ("Error creating case: " ++ m) true),
           { st with trace := st.trace
             ++ [RemoteCall.createOne "Case" (CaseCreationTs.buildCaseRecord args)] })) ∧
    (∀ fieldName m, conn.describeFields "Case" = Except.error m →
      CaseCreationTs.handleGetPicklistValues conn fieldName st
        = (Except.ok (HandlerResult.mk ("Error getting picklist values: " ++ m) true),
           { st with trace := st.trace ++ [RemoteCall.describe "Case"] })) ∧
    (∀ args m, args.operation = DMLOp.update →
      conn.update args.objectName args.records = Except.error m →
      CaseCreationTs.handleDMLRecords conn args st
        = (Except.error m, { st with trace := st.trace
            ++ [RemoteCall.update args.objectName args.records] }) ∧
      DmlTs.handleDMLRecords conn args st
        = (Except.error m, { st with trace := st.trace
            ++ [RemoteCall.update args.objectName args.records] })) :=
  ⟨fun st₁ => handleGetCaseMetadata_total conn st₁,
   fun t st₁ => handleSearchAccounts_total conn t st₁,
   fun a st₁ => handleSearchContacts_total conn a st₁,
   fun a st₁ => handleCreateCase_total conn a st₁,
   fun f st₁ => handleGetPicklistValues_total conn f st₁,
   fun m hm => handleGetCaseMetadata_rejection conn m st hm,
   fun t m hm => handleSearchAccounts_rejection conn t m st hm,
   fun a m hm => handleSearchContacts_rejection conn a m st hm,
   fun a m hm => handleCreateCase_rejection conn a m st hm,
   fun f m hm => handleGetPicklistValues_rejection conn f m st hm,
   fun args m hop hm => handleDMLRecords_update_propagates conn args m st hop hm⟩

/-- C3 counterexample: with a connection whose `update` rejects, both DML-handler
variants return a thrown error (`Except.error`), not an `isError := true` result:
the remote failure is not caught inside the handler. -/
theorem c3_counterexample_dml_uncaught :
    (CaseCreationTs.handleDMLRecords connBoom
      { operation := DMLOp.update, objectName := "Account", records := [[]] }) ⟨[], []⟩
      = (Except.error "Remote update rejected",
         ⟨[], [RemoteCall.update "Account" [[]]]⟩) ∧
    (DmlTs.handleDMLRecords connBoom
      { operation := DMLOp.update, objectName := "Account", records := [[]] }) ⟨[], []⟩
      = (Except.error "Remote update rejected",
         ⟨[], [RemoteCall.update "Account" [[]]]⟩) :=
  ⟨by decide, by decide⟩

/-- C3 witness: the propagation conjunct applied at a concrete rejecting connection. -/
theorem c3_amended_remote_failures_witness :
    CaseCreationTs.handleDMLRecords connBoom
      { operation := DMLOp.update, objectName := "Account", records := [[]] } ⟨[], []⟩
      = (Except.error "Remote update rejected",
         ⟨[], [RemoteCall.update "Account" [[]]]⟩) :=
  (((c3_amended_remote_failures connBoom ⟨[], []⟩).2.2.2.2.2.2.2.2.2.2)
      { operation := DMLOp.update, objectName := "Account", records := [[]] }
      "Remote update rejected" rfl rfl).1

theorem getField_assignFields (af : List (String × FieldVal)) (r : Rec) (k : String) :
    getField (CaseCreationTs.assignFields r af) k =
      match lookupLast af k with
      | some v => some v
      | none => getField r k := by
  induction af generalizing r with
  | nil => rfl
  | cons p rest ih =>
    have h1 : CaseCreationTs.assignFields r (p :: rest)
        = CaseCreationTs.assignFields (setField r p.1 p.2) rest := rfl
    rw [h1, ih]
    rcases hll : lookupLast rest k with _ | v
    · by_cases hp : p.1 = k
      · subst hp
        rw [getField_setField_same]
        simp [lookupLast, hll]
      · rw [getField_setField_ne r p.1 k p.2 (Ne.symm hp)]
        simp [lookupLast, hll, hp]
    · simp [lookupLast, hll]

theorem buildCaseRecord_eq_assign (args : CaseCreationTs.CreateCaseArgs)
    (af : List (String × FieldVal)) (haf : args.additionalFields = some af) :
    ∃ base, CaseCreationTs.buildCaseRecord args = CaseCreationTs.assignFields base af := by
  rcases args with ⟨s, d, p, stt, a, c, t, o, adf⟩
  cases haf
  exact ⟨_, rfl⟩

theorem handleCreateCase_ok_shape (conn : Conn) (args : CaseCreationTs.CreateCaseArgs)
    (res : DMLResult) (st : St)
    (hres : conn.createOne "Case" (CaseCreationTs.buildCaseRecord args) = Except.ok res) :
    ∃ r, CaseCreationTs.handleCreateCase conn args st
      = (Except.ok r, { st with trace := st.trace
          ++ [RemoteCall.createOne "Case" (CaseCreationTs.buildCaseRecord args)] }) := by
  unfold CaseCreationTs.handleCreateCase
  simp only [bind_is_Mbind, pure_is_Mpure]
  have hcc : callCreateOne conn "Case" (CaseCreationTs.buildCaseRecord args) st
      = (Except.ok res, { st with trace := st.trace
          ++ [RemoteCall.createOne "Case" (CaseCreationTs.buildCaseRecord args)] }) := by
    unfold callCreateOne callRemote
    rw [hres]
  unfold M.tryCatch
  rw [M.bind_of_ok _ hcc]
  by_cases hs : res.success = true
  · rw [if_pos hs]
    exact ⟨_, rfl⟩
  · rw [if_neg hs]
    exact ⟨_, rfl⟩

/-- C9: in `handleCreateCase` the `additionalFields` mapping is merged into the
case record by `Object.assign` after the named arguments, so any key bound by
`additionalFields` (its last entry for that key) overrides the named argument's
value in the record the handler submits; and the handler's single remote call
is exactly `create` on that merged record. -/
theorem c9_additional_fields_override (args : CaseCreationTs.CreateCaseArgs)
    (af : List (String × FieldVal)) (k : String) (v : FieldVal)
    (haf : args.additionalFields = some af)
    (hk : lookupLast af k = some v) :
    getField (CaseCreationTs.buildCaseRecord args) k = some v ∧
    (∀ conn st, ∃ r st1,
      CaseCreationTs.handleCreateCase conn args st = (Except.ok r, st1) ∧
      st1.trace = st.trace
        ++ [RemoteCall.createOne "Case" (CaseCreationTs.buildCaseRecord args)]) := by
  constructor
  · obtain ⟨base, hb⟩ := buildCaseRecord_eq_assign args af haf
    rw [hb, getField_assignFields, hk]
  · intro conn st
    rcases hres : conn.createOne "Case" (CaseCreationTs.buildCaseRecord args) with m | res
    · exact ⟨_, _, handleCreateCase_rejection conn args m st hres, rfl⟩
    · obtain ⟨r, hr⟩ := handleCreateCase_ok_shape conn args res st hres
      exact ⟨r, _, hr, rfl⟩

/-- C9 witness: `additionalFields.Subject` overrides the `subject` argument. -/
theorem c9_additional_fields_override_witness :
    getField (CaseCreationTs.buildCaseRecord
      { subject := "A", description := "", priority := "High", status := "New",
        accountId := "001A",
        additionalFields := some [("Subject", FieldVal.s "B")] })
      "Subject" = some (FieldVal.s "B") :=
  (c9_additional_fields_override
    { subject := "A", description := "", priority := "High", status := "New",
      accountId := "001A",
      additionalFields := some [("Subject", FieldVal.s "B")] }
    [("Subject", FieldVal.s "B")] "Subject" (FieldVal.s "B")
    rfl (by decide)).1

/-- C10: `promptUser` resolves the raw input line trimmed of leading and
trailing whitespace before any caller sees it, so every downstream comparison
of the guided flow operates on the trimmed input; in particular the final
confirmation accepts an answer of `" Y "`. -/
theorem c10_promptUser_trims :
    (∀ message raw rest trace,
      promptUser message ⟨raw :: rest, trace⟩ = (Except.ok (jsTrim raw), ⟨rest, trace⟩)) ∧
    (∀ caseRecord rest trace,
      CaseCreationTs.confirmCase caseRecord ⟨" Y " :: rest, trace⟩
        = (Except.ok caseRecord, ⟨rest, trace⟩)) :=
  ⟨fun _ _ _ _ => rfl, fun _ _ _ => rfl⟩
